import Mathlib

/-!
# Verification of the vyom SAPHIRE-to-OpenPRA extraction core

Shallow embedding of the extraction/conversion core of the `vyom` tool:

* `vyom/schema/saphire.py` — the Event-Tree-Logic parser `parse_etl_file`
  and the validator `validate_basic_event`;
* `vyom/converter.py` — `normalize_gate_type`, `convert_sequences`,
  `convert_gates`, `convert_saphire_model`, `to_openpra`;
* `vyom/schema/openpra.py` — the module-level `OPENPRA_SCHEMA` template,
  `create_empty_schema`, `upgrade_schema` and the two one-hop upgrade
  functions;
* `vyom/extractor.py` — the per-fragment folding of `analyze_files` into the
  unified SAPHIRE document.

Python strings are modelled as `List Char` (`Str`), with Python's string
built-ins (`split`, `strip`, `startswith`, `upper`, `join`) re-implemented
over `Str` with Python semantics.  Python floats are modelled as `ℚ`; the
claims only compare probabilities against 0 and 1, where the translation is
exact.  JSON-like Python values are modelled by the inductive `Jval`;
Python dicts are association lists in insertion order, as CPython preserves
insertion order.  The module-level mutable `OPENPRA_SCHEMA` template of
`openpra.py` is modelled by explicit state passing of its nested, shared
sub-structures (`OpenpraTemplate`), which makes the aliasing created by the
shallow `dict.copy()` in `create_empty_schema` observable.
-/

/-- Python strings, modelled as lists of characters. -/
abbrev Str := List Char

/-- Shorthand: the character list of a Lean string literal. -/
def lit (s : String) : Str := s.toList

/-- The byte-order-mark character stripped by the SAPHIRE parsers. -/
def bomChar : Char := '\uFEFF'

/-- ASCII whitespace recognised by Python's `str.strip()` / `str.split()`
(the inputs in question are ASCII; the Unicode-only whitespace characters
do not occur in them).  The BOM is *not* whitespace, in Python as here. -/
def isPySpace (c : Char) : Bool :=
  c = ' ' || c = '\t' || c = '\n' || c = '\r' || c = '\x0b' || c = '\x0c'

/-- Python `s.strip()`: drop whitespace from both ends. -/
def pyStrip (s : Str) : Str :=
  ((s.dropWhile isPySpace).reverse.dropWhile isPySpace).reverse

/-- Python `s.startswith(pre)`. -/
def pyStartswith (pre s : Str) : Bool := List.isPrefixOf pre s

/-- Python `s.upper()` (character-wise ASCII uppercasing; the gate-type
strings compared against are all ASCII). -/
def pyUpper (s : Str) : Str := s.map Char.toUpper

/-- Python `s.lower()` (character-wise ASCII lowercasing). -/
def pyLower (s : Str) : Str := s.map Char.toLower

/-- Python `s.split(c)` for a single-character separator: keeps empty
pieces, and `"".split(c) == [""]`. -/
def pySplitChar (c : Char) : Str → List Str
  | [] => [[]]
  | x :: rest =>
    if x = c then [] :: pySplitChar c rest
    else
      match pySplitChar c rest with
      | t :: ts => (x :: t) :: ts
      | [] => [[x]]

/-- Splitting at every character satisfying a predicate (empty pieces
kept); the building block for Python's no-argument `split()`. -/
def pySplitPred (p : Char → Bool) : Str → List Str
  | [] => [[]]
  | x :: rest =>
    if p x then [] :: pySplitPred p rest
    else
      match pySplitPred p rest with
      | t :: ts => (x :: t) :: ts
      | [] => [[x]]

/-- Python `s.split()` with no argument: split on whitespace runs,
discarding empty pieces. -/
def pySplitWs (s : Str) : List Str :=
  (pySplitPred isPySpace s).filter (fun t => ¬ t.isEmpty)

/-- Fuelled worker for `pySplitOn`; the fuel is consumed one input
character per step, so `s.length + 1` always suffices. -/
def pySplitOnAux (sep : Str) : Nat → Str → Str → List Str
  | 0, _, acc => [acc.reverse]
  | _ + 1, [], acc => [acc.reverse]
  | fuel + 1, c :: rest, acc =>
    if List.isPrefixOf sep (c :: rest) then
      acc.reverse :: pySplitOnAux sep fuel (List.drop (sep.length - 1) rest) []
    else
      pySplitOnAux sep fuel rest (c :: acc)

/-- Python `s.split(sep)` for a non-empty multi-character separator:
`"a^EOSb".split("^EOS") == ["a", "b"]`, `"".split(sep) == [""]`. -/
def pySplitOn (sep s : Str) : List Str :=
  if sep = [] then [s] else pySplitOnAux sep (s.length + 1) s []

/-- Python `sep.join(xs)`. -/
def pyJoin (sep : Str) (xs : List Str) : Str := List.intercalate sep xs

/-- Python `str(n)` for a non-negative integer. -/
def natStr (n : Nat) : Str := Nat.toDigits 10 n

/-- First element of a list of strings, or the empty string — models
`lines[0] if lines else ""` (the lists produced by `split` are never
empty). -/
def headStr (xs : List Str) : Str := xs.headD []

/-- `xs[i]` as a total function returning `[]` out of range; every use is
guarded by the corresponding Python bounds check. -/
def strAt (xs : List Str) (i : Nat) : Str := xs.getD i []

/-!
## `vyom/converter.py`, lines 271–296: `normalize_gate_type`
-/

/-- The recognised OpenPRA gate kinds (§3 of the spec lists seven,
`TRAN` included). -/
def recognizedGateKinds : List Str :=
  [lit "AND", lit "OR", lit "NOT", lit "XOR", lit "NAND", lit "NOR", lit "TRAN"]

/-- The six gate kinds `normalize_gate_type` can return. -/
def sixGateKinds : List Str :=
  [lit "AND", lit "OR", lit "NOT", lit "XOR", lit "NAND", lit "NOR"]

/-- The uppercased inputs `normalize_gate_type` recognises (everything
else falls back to `OR`). -/
def normalizeRecognizedInputs : List Str :=
  [lit "AND", lit "OR", lit "NOT", lit "XOR", lit "A", lit "O", lit "N", lit "X",
   lit "NAND", lit "NOR"]

/-- `normalize_gate_type` (converter.py 271–296): uppercase; `AND`, `OR`,
`NOT`, `XOR` pass through; otherwise look up the abbreviation map
`A→AND, O→OR, N→NOT, X→XOR, NAND→NAND, NOR→NOR`, defaulting to `OR`. -/
def normalize_gate_type (gate_type : Str) : Str :=
  let g := pyUpper gate_type
  if g = lit "AND" ∨ g = lit "OR" ∨ g = lit "NOT" ∨ g = lit "XOR" then g
  else if g = lit "A" then lit "AND"
  else if g = lit "O" then lit "OR"
  else if g = lit "N" then lit "NOT"
  else if g = lit "X" then lit "XOR"
  else if g = lit "NAND" then lit "NAND"
  else if g = lit "NOR" then lit "NOR"
  else lit "OR"

/-!
## `vyom/schema/saphire.py`, lines 325–547: `parse_etl_file`

The parser walks each `^EOS`-separated block with a manually managed line
index; the loops below mirror that index arithmetic.  Each loop advances
the index by at least one per iteration and runs only while the index is
below the number of lines, so fuel `lines.length + 1` never runs out.
-/

/-- A `{"id": ..., "description": ...}` top-event entry. -/
structure EtlTopEvent where
  id : Str
  description : Str
deriving DecidableEq, Repr

/-- A `{"id": ..., "end_state": ..., "path": [...]}` sequence entry. -/
structure EtlSequence where
  id : Str
  end_state : Str
  path : List Str
deriving DecidableEq, Repr

/-- A `{"original": ..., "substitute": ...}` node-substitution entry. -/
structure EtlNodeSub where
  original : Str
  substitute : Str
deriving DecidableEq, Repr

/-- The per-tree dictionary initialised at saphire.py 371–376. -/
structure EtlTree where
  top_events : List EtlTopEvent
  sequences : List EtlSequence
  node_descriptions : List (Str × Str)
  node_substitutions : List (Str × EtlNodeSub)
deriving DecidableEq, Repr

def emptyEtlTree : EtlTree := ⟨[], [], [], []⟩

/-- The dictionary returned by `parse_etl_file` (`type`, `data.event_trees`,
`errors`). -/
structure EtlResult where
  typ : Str
  event_trees : List (Str × EtlTree)
  errors : List Str
deriving DecidableEq, Repr

/-- Python dict lookup on an insertion-ordered association list. -/
def aget {β : Type} (m : List (Str × β)) (k : Str) : Option β :=
  match m with
  | [] => none
  | (k', v) :: rest => if k' = k then some v else aget rest k

/-- Python dict assignment `m[k] = v`: replace the value of an existing
key in place, else append the new key. -/
def aset {β : Type} (m : List (Str × β)) (k : Str) (v : β) : List (Str × β) :=
  match m with
  | [] => [(k, v)]
  | (k', v') :: rest => if k' = k then (k, v) :: rest else (k', v') :: aset rest k v

/-- `trees[current_tree] = f(trees[current_tree])`: update the (present)
entry of the current tree. -/
def updTree (trees : List (Str × EtlTree)) (n : Str) (f : EtlTree → EtlTree) :
    List (Str × EtlTree) :=
  match trees with
  | [] => []
  | (k, t) :: rest => if k = n then (k, f t) :: rest else (k, t) :: updTree rest n f

/-- saphire.py 452–457: append `node_id` to the path of the first sequence
whose id matches (`break` after the first hit; no hit changes nothing). -/
def appendSeqNode (seqs : List EtlSequence) (seqName nodeId : Str) : List EtlSequence :=
  match seqs with
  | [] => []
  | s :: rest =>
    if s.id = seqName then { s with path := s.path ++ [nodeId] } :: rest
    else s :: appendSeqNode rest seqName nodeId

/-- saphire.py 412–436: the `^SEQUENCES` scan (the caller has already
skipped the asterisk header line). -/
def scanSequences (lines : List Str) (tname : Str) :
    Nat → List (Str × EtlTree) → Nat → (List (Str × EtlTree)) × Nat
  | 0, trees, i => (trees, i)
  | fuel + 1, trees, i =>
    if i < lines.length then
      if pyStartswith (lit "^") (pyStrip (strAt lines i)) then (trees, i)
      else
        let parts := pySplitChar ',' (pyStrip (strAt lines i))
        if 4 ≤ parts.length ∧ pyStrip (headStr parts) = lit "Y" then
          let seqName := pyStrip (strAt parts 1)
          let endState := pyStrip (strAt parts 3)
          if seqName ≠ [] then
            scanSequences lines tname fuel
              (updTree trees tname (fun t =>
                { t with sequences := t.sequences ++ [⟨seqName, endState, []⟩] }))
              (i + 1)
          else scanSequences lines tname fuel trees (i + 1)
        else scanSequences lines tname fuel trees (i + 1)
    else (trees, i)

/-- saphire.py 439–460: the `^LOGIC` scan. -/
def scanLogic (lines : List Str) (tname : Str) :
    Nat → List (Str × EtlTree) → Nat → (List (Str × EtlTree)) × Nat
  | 0, trees, i => (trees, i)
  | fuel + 1, trees, i =>
    if i < lines.length then
      if pyStartswith (lit "^") (pyStrip (strAt lines i)) then (trees, i)
      else
        let parts := pySplitChar ',' (pyStrip (strAt lines i))
        if 2 ≤ parts.length then
          let seqName := pyStrip (headStr parts)
          let nodeId := pyStrip (strAt parts 1)
          scanLogic lines tname fuel
            (updTree trees tname (fun t =>
              { t with sequences := appendSeqNode t.sequences seqName nodeId }))
            (i + 1)
        else scanLogic lines tname fuel trees (i + 1)
    else (trees, i)

/-- saphire.py 463–485: the `^NODESUBS` scan.  A `NODEPOS` line without a
second whitespace-separated token raises `IndexError` in
`line_content.split()[1]`; the exception is caught by the per-line
`try`/`except` of the enclosing loop, which is signalled here by the
final `Bool`. -/
def scanNodesubs (lines : List Str) (tname : Str) :
    Nat → List (Str × EtlTree) → Nat → (List (Str × EtlTree)) × Nat × Bool
  | 0, trees, i => (trees, i, false)
  | fuel + 1, trees, i =>
    if i < lines.length then
      let lc := pyStrip (strAt lines i)
      if pyStartswith (lit "^") lc then (trees, i, false)
      else if pyStartswith (lit "NODEPOS") lc then
        let ws := pySplitWs lc
        if ws.length < 2 then (trees, i, true)
        else
          let nodePos := pyStrip (strAt ws 1)
          let i := i + 1
          let trees :=
            if i < lines.length then
              let subs := pySplitChar '=' (pyStrip (strAt lines i))
              if subs.length = 2 then
                let entry : EtlNodeSub := ⟨pyStrip (headStr subs), pyStrip (strAt subs 1)⟩
                updTree trees tname (fun t =>
                  { t with node_substitutions := aset t.node_substitutions nodePos entry })
              else trees
            else trees
          scanNodesubs lines tname fuel trees (i + 1)
      else scanNodesubs lines tname fuel trees (i + 1)
    else (trees, i, false)

/-- Python `s.strip(c)` for a single character: drop every leading and
trailing occurrence of `c`. -/
def pyStripChar (c : Char) (s : Str) : Str :=
  ((s.dropWhile (· = c)).reverse.dropWhile (· = c)).reverse

/-- saphire.py 488–506: the `^TEXT` scan; the same potential `IndexError`
as in the `^NODESUBS` scan is signalled by the final `Bool`. -/
def scanText (lines : List Str) (tname : Str) :
    Nat → List (Str × EtlTree) → Nat → (List (Str × EtlTree)) × Nat × Bool
  | 0, trees, i => (trees, i, false)
  | fuel + 1, trees, i =>
    if i < lines.length then
      let lc := pyStrip (strAt lines i)
      if pyStartswith (lit "^") lc then (trees, i, false)
      else if pyStartswith (lit "NODEPOS") lc then
        let ws := pySplitWs lc
        if ws.length < 2 then (trees, i, true)
        else
          let nodePos := pyStrip (strAt ws 1)
          let i := i + 1
          let trees :=
            if i < lines.length then
              let desc := pyStripChar '\"' (pyStrip (strAt lines i))
              updTree trees tname (fun t =>
                { t with node_descriptions := aset t.node_descriptions nodePos desc })
            else trees
          scanText lines tname fuel trees (i + 1)
      else scanText lines tname fuel trees (i + 1)
    else (trees, i, false)

/-- The error message appended when a section scan raises `IndexError`
(saphire.py 507–509; `str(IndexError(...))` is
`"list index out of range"`). -/
def etlContentError (tname : Str) : Str :=
  lit "Error parsing event tree content in block for " ++ tname ++
    lit ": list index out of range"

/-- saphire.py 386–511: the per-block line loop, starting at line index 1
(the header was consumed by the caller). -/
def processLines (lines : List Str) (tname : Str) :
    Nat → List (Str × EtlTree) → List Str → Nat → (List (Str × EtlTree)) × List Str
  | 0, trees, errors, _ => (trees, errors)
  | fuel + 1, trees, errors, i =>
    if i < lines.length then
      let line := pyStrip (strAt lines i)
      if line = [] then processLines lines tname fuel trees errors (i + 1)
      else if line = lit "^TOPS" then
        let i1 := i + 1
        let trees :=
          if i1 < lines.length then
            let tops := pySplitChar ',' (pyStrip (strAt lines i1))
            let added := tops.filterMap (fun top =>
              let top := pyStrip top
              if top ≠ [] then some (⟨top, top⟩ : EtlTopEvent) else none)
            updTree trees tname (fun t => { t with top_events := t.top_events ++ added })
          else trees
        processLines lines tname fuel trees errors (i1 + 1)
      else if pyStartswith (lit "^SEQUENCES") line then
        let r := scanSequences lines tname (lines.length + 1) trees (i + 2)
        processLines lines tname fuel r.1 errors r.2
      else if line = lit "^LOGIC" then
        let r := scanLogic lines tname (lines.length + 1) trees (i + 1)
        processLines lines tname fuel r.1 errors r.2
      else if line = lit "^NODESUBS" then
        let r := scanNodesubs lines tname (lines.length + 1) trees (i + 1)
        if r.2.2 then
          processLines lines tname fuel r.1 (errors ++ [etlContentError tname]) (r.2.1 + 1)
        else processLines lines tname fuel r.1 errors r.2.1
      else if line = lit "^TEXT" then
        let r := scanText lines tname (lines.length + 1) trees (i + 1)
        if r.2.2 then
          processLines lines tname fuel r.1 (errors ++ [etlContentError tname]) (r.2.1 + 1)
        else processLines lines tname fuel r.1 errors r.2.1
      else processLines lines tname fuel trees errors (i + 1)
    else (trees, errors)

/-- saphire.py 343–384: one `^EOS`-separated block.  A block whose first
non-whitespace character run is a BOM loses that BOM; a block whose first
line does not start with `HTGR_PRA,` is skipped silently.  The
`if ',' in parts` guard of line 365 cannot fail — the comma of the
`HTGR_PRA,` prefix survives `split('=')[0].strip()` because no `=` occurs
before it — so the no-comma case (which would leave `current_tree` stale)
is unreachable and both failure branches just leave the state unchanged. -/
def processBlock (trees : List (Str × EtlTree)) (errors : List Str) (block : Str) :
    (List (Str × EtlTree)) × List Str :=
  if pyStrip block = [] then (trees, errors)
  else
    let block := if pyStartswith [bomChar] (pyStrip block) then (pyStrip block).drop 1 else block
    let lines := pySplitChar '\n' (pyStrip block)
    let first_line := pyStrip (headStr lines)
    if pyStartswith (lit "HTGR_PRA,") first_line then
      let parts := pyStrip (headStr (pySplitChar '=' first_line))
      if parts.contains ',' then
        let tree_name := pyStrip (strAt (pySplitChar ',' parts) 1)
        let trees :=
          if (aget trees tree_name).isNone then trees ++ [(tree_name, emptyEtlTree)]
          else trees
        processLines lines tree_name (lines.length + 1) trees errors 1
      else (trees, errors)
    else (trees, errors)

/-- saphire.py 325–547: `parse_etl_file`.  Strips one leading BOM from the
content, splits on the literal `^EOS`, folds the blocks left to right, and
finally appends the missing-trees warning when fewer trees were named than
blocks (minus one) were found. -/
def parse_etl_file (content : Str) : EtlResult :=
  let content := if pyStartswith [bomChar] content then content.drop 1 else content
  let tree_blocks := pySplitOn (lit "^EOS") content
  let r := tree_blocks.foldl
    (fun (acc : (List (Str × EtlTree)) × List Str) block => processBlock acc.1 acc.2 block)
    ([], [])
  let tree_names := r.1.map Prod.fst
  let errors :=
    if tree_names.length < tree_blocks.length - 1 then
      r.2 ++ [lit "Warning: Expected to find " ++ natStr (tree_blocks.length - 1) ++
        lit " trees, but found " ++ natStr tree_names.length ++ lit ": " ++
        pyJoin (lit ", ") tree_names]
    else r.2
  ⟨lit "event_tree_logic", r.1, errors⟩

/-!
## JSON-like Python values

`Jval` models the dict/list/str/number/bool/None values the converter and
schema modules pass around.  Python dicts are insertion-ordered association
lists.  Its numbers are rationals: that is faithful for every literal the
schema and converter modules handle themselves.  `validate_basic_event`
is the one place where the IEEE specials (`nan`, the infinities) are
observable, so it is modelled further below over the widened number
domain `PyNum` instead.
-/

inductive Jval where
  | str (s : Str)
  | num (q : ℚ)
  | bool (b : Bool)
  | null
  | arr (xs : List Jval)
  | obj (kvs : List (Str × Jval))

/-- Python `d.get(k, dflt)` over a `Jval` dict body. -/
def dgetD (kvs : List (Str × Jval)) (k : Str) (dflt : Jval) : Jval :=
  (aget kvs k).getD dflt

/-- Python `str(v)` as used in error-message interpolation.  Only the
atomic cases are rendered; no claim inspects a message containing a
container or a float, where Python's formatting differs. -/
def jvalPyStr : Jval → Str
  | .str s => s
  | .num q => lit (toString q)
  | .bool b => if b then lit "True" else lit "False"
  | .null => lit "None"
  | .arr _ => lit "<list>"
  | .obj _ => lit "<dict>"

/-!
## `vyom/schema/saphire.py`, lines 107–122: `validate_basic_event`

The validator compares the probability with `prob < 0 or prob > 1`.
Python ints and floats flow into that field, and IEEE floats include
`nan` (every comparison with it is false) and the two infinities, none
of which a rational can carry, so for this function the number domain is
`PyNum` rather than `ℚ`.
-/

/-- A Python `int`/`float` value: a finite rational, `float("nan")`,
`float("inf")` or `float("-inf")`. -/
inductive PyNum where
  | fin (q : ℚ)
  | nan
  | inf
  | ninf
deriving DecidableEq, Repr

/-- IEEE `<` on numbers: any comparison involving `nan` is false, the
infinities compare below/above every finite value. -/
def pyNumLt : PyNum → PyNum → Bool
  | .fin a, .fin b => a < b
  | .fin _, .inf => true
  | .ninf, .fin _ => true
  | .ninf, .inf => true
  | _, _ => false

/-- Python `str` of an `int`/`float` value (finite rendering shared with
`jvalPyStr`; no claim inspects a rendered float message). -/
def pyNumStr : PyNum → Str
  | .fin q => lit (toString q)
  | .nan => lit "nan"
  | .inf => lit "inf"
  | .ninf => lit "-inf"

/-- A Python value as the validator can receive it in a field.  Numbers
carry the full `PyNum` domain; containers are atoms here because
`validate_basic_event` never looks inside one. -/
inductive PyVal where
  | num (x : PyNum)
  | bool (b : Bool)
  | str (s : Str)
  | null
  | listv
  | dictv
deriving DecidableEq, Repr

/-- A candidate basic-event dict, restricted to the three fields the
validator reads (other keys are never touched by it). `none` models an
absent key. -/
structure BasicEventCand where
  id : Option PyVal
  name : Option PyVal
  probability : Option PyVal

/-- `isinstance(v, (int, float))`: numbers, and Python booleans (`bool`
is a subclass of `int`). -/
def pyValIsNumber : PyVal → Bool
  | .num _ => true
  | .bool _ => true
  | _ => false

/-- The numeric value used by the `prob < 0 or prob > 1` comparisons
(`True == 1`, `False == 0` in Python). -/
def pyValNumVal : PyVal → PyNum
  | .num x => x
  | .bool b => if b then .fin 1 else .fin 0
  | _ => .fin 0

/-- Python `str(v)` as interpolated into the validator's message. -/
def pyValStr : PyVal → Str
  | .num x => pyNumStr x
  | .bool b => if b then lit "True" else lit "False"
  | .str s => s
  | .null => lit "None"
  | .listv => lit "<list>"
  | .dictv => lit "<dict>"

/-- saphire.py 107–122: `validate_basic_event`.  The required-field loop
runs over `["id", "name", "probability"]` in order; then the probability
must be a number and must not compare below 0 nor above 1 — out-of-range
values are rejected, never clamped.  The comparisons are the IEEE ones:
`nan < 0` and `nan > 1` are both false. -/
def validate_basic_event (be : BasicEventCand) : Bool × Str :=
  match be.id with
  | none => (false, lit "Missing required field: id")
  | some _ =>
    match be.name with
    | none => (false, lit "Missing required field: name")
    | some _ =>
      match be.probability with
      | none => (false, lit "Missing required field: probability")
      | some prob =>
        if ¬ pyValIsNumber prob ∨ pyNumLt (pyValNumVal prob) (.fin 0)
            ∨ pyNumLt (.fin 1) (pyValNumVal prob) then
          (false, lit "Probability must be a number between 0 and 1, got: " ++ pyValStr prob)
        else (true, lit "Valid")

/-!
## `vyom/converter.py`, lines 310–347: `convert_sequences`
-/

/-- converter.py 329–343: the path loop body, carried out over the whole
input path with the output path as accumulator (`openpra_sequence["path"]`
grows by `append`; the `Event<N>` label of the legacy string case reads
the accumulator's current length).  Elements that are neither a
`{event, state}` dict nor a string are skipped. -/
def convertPathGo : List Jval → List Jval → List Jval
  | [], acc => acc
  | b :: rest, acc =>
    match b with
    | .obj kvs =>
      if (aget kvs (lit "event")).isSome ∧ (aget kvs (lit "state")).isSome then
        convertPathGo rest (acc ++
          [.obj [(lit "event", dgetD kvs (lit "event") .null),
                 (lit "success", dgetD kvs (lit "state") .null)]])
      else convertPathGo rest acc
    | .str s =>
      let success : Bool := if pyUpper s = lit "S" ∨ pyUpper s = lit "SUCCESS" then true else false
      convertPathGo rest (acc ++
        [.obj [(lit "event", .str (lit "Event" ++ natStr (acc.length + 1))),
               (lit "success", .bool success)]])
    | _ => convertPathGo rest acc

/-- converter.py 322–345: one sequence dict.  A non-list `"path"` value
would raise in Python's `for` loop; the claims about this function only
concern dicts whose `"path"` is a list (or absent, defaulting to `[]`). -/
def convertOneSequence (sequence : List (Str × Jval)) : Jval :=
  let pathIn :=
    match dgetD sequence (lit "path") (.arr []) with
    | .arr xs => xs
    | _ => []
  .obj [(lit "id", dgetD sequence (lit "id") (.str (lit "unknown"))),
        (lit "end_state", dgetD sequence (lit "end_state") (.str [])),
        (lit "path", .arr (convertPathGo pathIn []))]

/-- converter.py 310–347: `convert_sequences`. -/
def convert_sequences (seqs : List (List (Str × Jval))) : List Jval :=
  seqs.map convertOneSequence

/-- The legacy path element for a bare string at 1-based position `n` of
the output path, as the amended claim C9 describes it. -/
def legacyPathElem (n : Nat) (s : Str) : Jval :=
  .obj [(lit "event", .str (lit "Event" ++ natStr n)),
        (lit "success", .bool (if pyUpper s = lit "S" ∨ pyUpper s = lit "SUCCESS" then true else false))]

/-- Spec-side rendering of the path conversion (amended claim C9): a
positional recursion in which `n` counts the elements already emitted, a
structured element passes through, and a bare string at output position
`n + 1` becomes `Event<n+1>`. -/
def convertPathSpec : List Jval → Nat → List Jval
  | [], _ => []
  | b :: rest, n =>
    match b with
    | .obj kvs =>
      if (aget kvs (lit "event")).isSome ∧ (aget kvs (lit "state")).isSome then
        .obj [(lit "event", dgetD kvs (lit "event") .null),
              (lit "success", dgetD kvs (lit "state") .null)] :: convertPathSpec rest (n + 1)
      else convertPathSpec rest n
    | .str s => legacyPathElem (n + 1) s :: convertPathSpec rest (n + 1)
    | _ => convertPathSpec rest n

/-- Spec-side rendering of `convert_sequences` (amended claim C9):
`id` and `end_state` pass through with their defaults, and the path is
converted positionally by `convertPathSpec`. -/
def convert_sequences_spec (seqs : List (List (Str × Jval))) : List Jval :=
  seqs.map fun sequence =>
    let pathIn :=
      match dgetD sequence (lit "path") (.arr []) with
      | .arr xs => xs
      | _ => []
    .obj [(lit "id", dgetD sequence (lit "id") (.str (lit "unknown"))),
          (lit "end_state", dgetD sequence (lit "end_state") (.str [])),
          (lit "path", .arr (convertPathSpec pathIn 0))]

/-!
## `vyom/schema/openpra.py`: template, `create_empty_schema`, validation

`OPENPRA_SCHEMA` (openpra.py 38–66) is a module-level mutable dict.
`create_empty_schema` (82–109) returns `OPENPRA_SCHEMA.copy()` — a
*shallow* copy, so the `metadata`, `models`, `analysis` and `lmp`
sub-objects of every returned instance are the very same objects as the
template's.  `OpenpraTemplate` holds the mutable contents of those shared
sub-objects and is threaded explicitly; a returned schema instance is the
pair of its own `version` entry and the template state, rendered by
`templateSnapshot`.
-/

/-- The mutable nested contents of the module-level `OPENPRA_SCHEMA`. -/
structure OpenpraTemplate where
  metadata : List (Str × Jval)
  fault_trees : List Jval
  event_trees : List Jval
  basic_events : List Jval
  initiating_events : List Jval
  end_states : List Jval
  sequences : List Jval
  analysis : List (Str × Jval)
  lmp : List (Str × Jval)

/-- openpra.py 35: the current schema version. -/
def SCHEMA_VERSION : Str := lit "2.0.0"

/-- openpra.py 16–32: the keys of `SCHEMA_VERSIONS`. -/
def knownVersions : List Str := [lit "1.0.0", lit "1.1.0", lit "2.0.0"]

/-- openpra.py 38–66: the template contents at module load. -/
def OPENPRA_SCHEMA : OpenpraTemplate where
  metadata := [(lit "title", .str []), (lit "description", .str []),
    (lit "created_date", .str []), (lit "source", .str []),
    (lit "schema_version", .str (lit "2.0.0")), (lit "attributes", .obj [])]
  fault_trees := []
  event_trees := []
  basic_events := []
  initiating_events := []
  end_states := []
  sequences := []
  analysis := [(lit "quantifications", .arr []), (lit "importance_measures", .arr []),
    (lit "uncertainty", .obj [])]
  lmp := [(lit "lbes", .arr []), (lit "sscs", .arr []), (lit "drm", .obj [])]

/-- `schema["metadata"][k] = v` — a write through the shared metadata
object. -/
def setMeta (tpl : OpenpraTemplate) (k : Str) (v : Jval) : OpenpraTemplate :=
  { tpl with metadata := aset tpl.metadata k v }

/-- openpra.py 82–109: `create_empty_schema`.  Resolves the requested
version (unknown versions fall back to the latest), then writes
`schema_version` and `created_date` through the shared metadata object.
The wall-clock `datetime.now().isoformat()` is passed in as `now`.
Returns the instance's own `version` entry; its nested parts are the
template's. -/
def create_empty_schema (version : Option Str) (now : Str) (tpl : OpenpraTemplate) :
    Str × OpenpraTemplate :=
  let v := match version with
    | none => SCHEMA_VERSION
    | some v => if v ∈ knownVersions then v else SCHEMA_VERSION
  let tpl := setMeta tpl (lit "schema_version") (.str v)
  let tpl := setMeta tpl (lit "created_date") (.str now)
  (v, tpl)

/-- The value of a schema instance (own `version` plus the shared nested
objects) as one `Jval`, in the key order of `OPENPRA_SCHEMA`. -/
def templateSnapshot (v : Str) (tpl : OpenpraTemplate) : Jval :=
  .obj [(lit "version", .str v),
        (lit "metadata", .obj tpl.metadata),
        (lit "models", .obj [(lit "fault_trees", .arr tpl.fault_trees),
          (lit "event_trees", .arr tpl.event_trees),
          (lit "basic_events", .arr tpl.basic_events),
          (lit "initiating_events", .arr tpl.initiating_events),
          (lit "end_states", .arr tpl.end_states),
          (lit "sequences", .arr tpl.sequences)]),
        (lit "analysis", .obj tpl.analysis),
        (lit "lmp", .obj tpl.lmp)]

/-- openpra.py 194–221: `validate_models` — the fault-tree loop. -/
def checkFaultTreesV : List Jval → Nat → Bool × Str
  | [], _ => (true, lit "Valid")
  | x :: rest, i =>
    match x with
    | .obj ft =>
      if (aget ft (lit "id")).isNone then (false, lit "Fault tree " ++ natStr i ++ lit " missing id")
      else if (aget ft (lit "gates")).isNone then
        (false, lit "Fault tree " ++ jvalPyStr (dgetD ft (lit "id") .null) ++ lit " missing gates")
      else checkFaultTreesV rest (i + 1)
    | _ => (false, lit "Fault tree " ++ natStr i ++ lit " must be a dictionary")

/-- openpra.py 194–221: `validate_models` — the event-tree loop. -/
def checkEventTreesV : List Jval → Nat → Bool × Str
  | [], _ => (true, lit "Valid")
  | x :: rest, i =>
    match x with
    | .obj et =>
      if (aget et (lit "id")).isNone then (false, lit "Event tree " ++ natStr i ++ lit " missing id")
      else if (aget et (lit "sequences")).isNone then
        (false, lit "Event tree " ++ jvalPyStr (dgetD et (lit "id") .null) ++ lit " missing sequences")
      else checkEventTreesV rest (i + 1)
    | _ => (false, lit "Event tree " ++ natStr i ++ lit " must be a dictionary")

/-- openpra.py 194–221: `validate_models` — the basic-event loop. -/
def checkBasicEventsV : List Jval → Nat → Bool × Str
  | [], _ => (true, lit "Valid")
  | x :: rest, i =>
    match x with
    | .obj be =>
      if (aget be (lit "id")).isNone then (false, lit "Basic event " ++ natStr i ++ lit " missing id")
      else checkBasicEventsV rest (i + 1)
    | _ => (false, lit "Basic event " ++ natStr i ++ lit " must be a dictionary")

/-- The list behind `models[key]` (the callers have established the key
is present with a list value). -/
def modelList (models : List (Str × Jval)) (k : Str) : List Jval :=
  match aget models k with
  | some (.arr xs) => xs
  | _ => []

/-- openpra.py 194–221: `validate_models`. -/
def validate_models (models : List (Str × Jval)) : Bool × Str :=
  match checkFaultTreesV (modelList models (lit "fault_trees")) 0 with
  | (false, m) => (false, m)
  | _ =>
    match checkEventTreesV (modelList models (lit "event_trees")) 0 with
    | (false, m) => (false, m)
    | _ => checkBasicEventsV (modelList models (lit "basic_events")) 0

/-- Is the value present and a dict? -/
def isObjVal : Option Jval → Bool
  | some (.obj _) => true
  | _ => false

/-- Is the value present and a list? -/
def isArrVal : Option Jval → Bool
  | some (.arr _) => true
  | _ => false

/-- The dict body behind a key (callers have established it). -/
def objBody (v : Option Jval) : List (Str × Jval) :=
  match v with
  | some (.obj kvs) => kvs
  | _ => []

/-- The per-key presence/list check shared by the two version validators
(openpra.py 152–157 and 172–177 are textually identical loops). -/
def checkModelKeys (models : List (Str × Jval)) : List Str → Option (Bool × Str)
  | [] => none
  | k :: rest =>
    if (aget models k).isNone then some (false, lit "Missing required model key: " ++ k)
    else if ¬ isArrVal (aget models k) then some (false, k ++ lit " must be a list")
    else checkModelKeys models rest

/-- openpra.py 186–189: the LMP key presence loop. -/
def checkLmpKeys (lmp : List (Str × Jval)) : List Str → Option (Bool × Str)
  | [] => none
  | k :: rest =>
    if (aget lmp k).isNone then some (false, lit "Missing required LMP key: " ++ k)
    else checkLmpKeys lmp rest

/-- openpra.py 142–160: `validate_schema_v1`, over the top-level dict
body. -/
def validate_schema_v1 (data : List (Str × Jval)) : Bool × Str :=
  if ¬ isObjVal (aget data (lit "metadata")) then (false, lit "Metadata must be a dictionary")
  else if ¬ isObjVal (aget data (lit "models")) then (false, lit "Models must be a dictionary")
  else
    let models := objBody (aget data (lit "models"))
    match checkModelKeys models
        [lit "fault_trees", lit "event_trees", lit "basic_events", lit "end_states"] with
    | some r => r
    | none => validate_models models

/-- openpra.py 162–192: `validate_schema_v2`, over the top-level dict
body. -/
def validate_schema_v2 (data : List (Str × Jval)) : Bool × Str :=
  if ¬ isObjVal (aget data (lit "metadata")) then (false, lit "Metadata must be a dictionary")
  else if ¬ isObjVal (aget data (lit "models")) then (false, lit "Models must be a dictionary")
  else
    let models := objBody (aget data (lit "models"))
    match checkModelKeys models
        [lit "fault_trees", lit "event_trees", lit "basic_events",
         lit "initiating_events", lit "end_states", lit "sequences"] with
    | some r => r
    | none =>
      if (aget data (lit "lmp")).isNone then (false, lit "Missing required LMP section")
      else if ¬ isObjVal (aget data (lit "lmp")) then (false, lit "LMP section must be a dictionary")
      else
        match checkLmpKeys (objBody (aget data (lit "lmp"))) [lit "lbes", lit "sscs", lit "drm"] with
        | some r => r
        | none => validate_models models

/-- openpra.py 111–140: `validate_schema`, over the top-level dict
body (calling it on a non-dict raises in Python; every call site passes
a dict). -/
def validate_schema (data : List (Str × Jval)) : Bool × Str :=
  if (aget data (lit "version")).isNone then (false, lit "Missing required key: version")
  else if (aget data (lit "metadata")).isNone then (false, lit "Missing required key: metadata")
  else if (aget data (lit "models")).isNone then (false, lit "Missing required key: models")
  else
    match dgetD data (lit "version") (.str (lit "unknown")) with
    | .str sv =>
      if sv = lit "1.0.0" ∨ sv = lit "1.1.0" then validate_schema_v1 data
      else if sv = lit "2.0.0" then validate_schema_v2 data
      else (false, lit "Unsupported schema version: " ++ sv ++
        lit ". Supported versions: 1.0.0, 1.1.0, 2.0.0")
    | v => (false, lit "Unsupported schema version: " ++ jvalPyStr v ++
        lit ". Supported versions: 1.0.0, 1.1.0, 2.0.0")

/-!
## `vyom/converter.py`, lines 13–308: `to_openpra` and helpers

The converter writes into the nested objects of the freshly "created"
schema — which, through `create_empty_schema`'s shallow copy, are the
module template's objects — so it is modelled as a state transformer on
`OpenpraTemplate`.  The input shape below is the direct-SAPHIRE-schema
branch of `to_openpra` (converter.py 49–51): a dict carrying `project`,
`fault_trees`, `event_trees`, `basic_events`, `end_states`.  `Option`
fields model `dict.get` with the defaults the code supplies.
-/

structure SProject where
  name : Option Str
  description : Option Str
  attributes : Option (List (Str × Jval))

structure SGate where
  id : Option Str
  typ : Option Str
  inputs : List Str

structure SFaultTree where
  id : Option Str
  name : Option Str
  description : Option Str
  gates : List SGate
  basic_events : List Str
  attributes : Option Jval

structure SEventTree where
  id : Option Str
  name : Option Str
  description : Option Str
  initiating_event : Option Str
  sequences : List (List (Str × Jval))
  attributes : Option Jval

structure SBasicEvent where
  id : Option Str
  name : Option Str
  probability : Option Jval
  description : Option Str
  attributes : Option Jval

structure SEndState where
  id : Option Str
  name : Option Str
  description : Option Str
  attributes : Option Jval

structure SaphireModel where
  project : SProject
  fault_trees : List SFaultTree
  event_trees : List SEventTree
  basic_events : List SBasicEvent
  end_states : List SEndState

/-- converter.py 234–269: `convert_gates`, including the
"starts with G" input-type heuristic. -/
def convert_gates (gates : List SGate) : List Jval :=
  gates.map fun gate =>
    .obj [(lit "id", .str (gate.id.getD (lit "unknown"))),
          (lit "type", .str (normalize_gate_type (gate.typ.getD (lit "OR")))),
          (lit "inputs", .arr (gate.inputs.map fun input_id =>
            .obj [(lit "id", .str input_id),
                  (lit "type", .str (if pyStartswith (lit "G") input_id
                    then lit "gate" else lit "basic_event"))]))]

/-- converter.py 298–308: `convert_basic_events_references`. -/
def convert_basic_events_references (ids : List Str) : List Jval :=
  ids.map fun i => .obj [(lit "id", .str i)]

/-- The current `metadata["attributes"]` dict body. -/
def metaAttrs (tpl : OpenpraTemplate) : List (Str × Jval) :=
  objBody (aget tpl.metadata (lit "attributes"))

/-- converter.py 81–163: `convert_saphire_model`, as a state transformer
on the shared nested objects.  The `"project" in saphire_model` guard is
satisfied by construction of `SaphireModel` (the direct-schema branch of
`to_openpra` requires the key). -/
def convert_saphire_model (m : SaphireModel) (tpl0 : OpenpraTemplate) : OpenpraTemplate :=
  let tpl := setMeta tpl0 (lit "title")
    (.str (lit "PRA Model: " ++ m.project.name.getD (lit "Unnamed")))
  let tpl := setMeta tpl (lit "description") (.str (m.project.description.getD []))
  let tpl :=
    match m.project.attributes with
    | some attrs => setMeta tpl (lit "attributes")
        (.obj (attrs.foldl (fun acc kv => aset acc kv.1 kv.2) (metaAttrs tpl)))
    | none => tpl
  let tpl := m.fault_trees.foldl (fun tpl ft =>
    let base := [(lit "id", .str (ft.id.getD (lit "unknown"))),
      (lit "name", .str (ft.name.getD (lit "Unnamed Fault Tree"))),
      (lit "description", .str (ft.description.getD [])),
      (lit "gates", .arr (convert_gates ft.gates)),
      (lit "basic_events", .arr (convert_basic_events_references ft.basic_events))]
    let base := match ft.attributes with
      | some a => base ++ [(lit "attributes", a)]
      | none => base
    { tpl with fault_trees := tpl.fault_trees ++ [.obj base] }) tpl
  let tpl := m.event_trees.foldl (fun tpl et =>
    let base := [(lit "id", .str (et.id.getD (lit "unknown"))),
      (lit "name", .str (et.name.getD (lit "Unnamed Event Tree"))),
      (lit "description", .str (et.description.getD [])),
      (lit "initiating_event", .str (et.initiating_event.getD [])),
      (lit "sequences", .arr (convert_sequences et.sequences))]
    let base := match et.attributes with
      | some a => base ++ [(lit "attributes", a)]
      | none => base
    { tpl with event_trees := tpl.event_trees ++ [.obj base] }) tpl
  let tpl := m.basic_events.foldl (fun tpl be =>
    let base := [(lit "id", .str (be.id.getD (lit "unknown"))),
      (lit "name", .str (be.name.getD (lit "Unnamed Basic Event"))),
      (lit "probability", be.probability.getD (.num 0)),
      (lit "description", .str (be.description.getD []))]
    let base := match be.attributes with
      | some a => base ++ [(lit "attributes", a)]
      | none => base
    { tpl with basic_events := tpl.basic_events ++ [.obj base] }) tpl
  m.end_states.foldl (fun tpl es =>
    let base := [(lit "id", .str (es.id.getD (lit "unknown"))),
      (lit "name", .str (es.name.getD (lit "Unnamed End State"))),
      (lit "description", .str (es.description.getD []))]
    let base := match es.attributes with
      | some a => base ++ [(lit "attributes", a)]
      | none => base
    { tpl with end_states := tpl.end_states ++ [.obj base] }) tpl

/-- converter.py 13–79: `to_openpra`, for an input carrying a direct
SAPHIRE schema (the `elif` of line 49).  The final `validate_schema`
call only logs and does not change the returned value, so it is not
threaded here.  Returns the instance value (a snapshot of the shared
state at return time) together with the template state. -/
def to_openpra (m : SaphireModel) (now : Str) (tpl0 : OpenpraTemplate) :
    Jval × OpenpraTemplate :=
  let vt := create_empty_schema none now tpl0
  let tpl := setMeta vt.2 (lit "title") (.str (lit "Converted from SAPHIRE"))
  let tpl := setMeta tpl (lit "source") (.str (lit "SAPHIRE Import"))
  let tpl := convert_saphire_model m tpl
  (templateSnapshot vt.1 tpl, tpl)

/-!
## `vyom/schema/openpra.py`, lines 223–311: schema upgrades

A version-1.x instance is an open dict: besides the standard fields it
may carry extra top-level keys (`topExtra`), extra keys in `models`
(`modelsExtra`), and optional `initiating_events` / `sequences` /
`analysis` values — the code's own validator accepts all of these.
`Pra1` records that open shape; `Pra2` is the closed shape produced by
`upgrade_1_1_to_2_0`, which rebuilds the instance from
`create_empty_schema("2.0.0")` (openpra.py 282) on the fresh-process
template, so it has exactly the template's top-level and models keys.
The in-place mutation of the *source* dict's nested objects by the
upgrade steps is not observed by any claim and is not threaded. -/

structure Pra1 where
  version : Str
  metadata : List (Str × Jval)
  fault_trees : List (List (Str × Jval))
  event_trees : List (List (Str × Jval))
  basic_events : List (List (Str × Jval))
  end_states : List (List (Str × Jval))
  initiating_events : Option Jval
  sequences : Option Jval
  modelsExtra : List (Str × Jval)
  analysis : Option Jval
  topExtra : List (Str × Jval)

structure Pra2 where
  version : Str
  metadata : List (Str × Jval)
  fault_trees : List (List (Str × Jval))
  event_trees : List (List (Str × Jval))
  basic_events : List (List (Str × Jval))
  end_states : List (List (Str × Jval))
  initiating_events : Jval
  sequences : Jval
  analysis : Jval
  lmp : Jval

/-- openpra.py 271–275: `if "attributes" not in model: model["attributes"] = {}`. -/
def addAttrsIfAbsent (model : List (Str × Jval)) : List (Str × Jval) :=
  if (aget model (lit "attributes")).isSome then model
  else aset model (lit "attributes") (.obj [])

/-- openpra.py 262–277: `upgrade_1_0_to_1_1`.  A shallow `data.copy()`
followed by in-place additions: version bumped, `schema_version`
rewritten, `attributes` added to every model of the four collections;
everything else is untouched. -/
def upgrade_1_0_to_1_1 (d : Pra1) : Pra1 :=
  { d with
      version := lit "1.1.0"
      metadata := aset d.metadata (lit "schema_version") (.str (lit "1.1.0"))
      fault_trees := d.fault_trees.map addAttrsIfAbsent
      event_trees := d.event_trees.map addAttrsIfAbsent
      basic_events := d.basic_events.map addAttrsIfAbsent
      end_states := d.end_states.map addAttrsIfAbsent }

/-- openpra.py 284–287: copy every metadata entry except
`schema_version` onto the target metadata dict. -/
def copyMeta (tgt src : List (Str × Jval)) : List (Str × Jval) :=
  src.foldl (fun acc kv =>
    if kv.1 = lit "schema_version" then acc else aset acc kv.1 kv.2) tgt

/-- openpra.py 279–311: `upgrade_1_1_to_2_0`.  Builds a fresh 2.0.0
instance via `create_empty_schema("2.0.0")` on the (fresh-process)
template, copies the metadata entries and the four model collections,
carries `initiating_events` / `sequences` / `analysis` over when present
(empty/template defaults otherwise), and takes the template's empty
`lmp` — any other top-level or models key of the source is not copied. -/
def upgrade_1_1_to_2_0 (d : Pra1) (now : Str) : Pra2 :=
  let vt := create_empty_schema (some (lit "2.0.0")) now OPENPRA_SCHEMA
  { version := vt.1
    metadata := copyMeta vt.2.metadata d.metadata
    fault_trees := d.fault_trees
    event_trees := d.event_trees
    basic_events := d.basic_events
    end_states := d.end_states
    initiating_events := d.initiating_events.getD (.arr [])
    sequences := d.sequences.getD (.arr [])
    analysis := d.analysis.getD (.obj vt.2.analysis)
    lmp := .obj vt.2.lmp }

/-- openpra.py 223–260: `upgrade_schema` for a version-1.x-shaped input
(`data["version"]` is always present in `Pra1`, so the
"No version information" branch is not reachable here).  The result is
the possibly upgraded instance, the success flag and the message. -/
def upgrade_schema (d : Pra1) (target now : Str) : (Pra1 ⊕ Pra2) × Bool × Str :=
  if d.version = target then (.inl d, true, lit "Already at target version")
  else if d.version ∉ knownVersions then
    (.inl d, false, lit "Unknown source version: " ++ d.version)
  else if target ∉ knownVersions then
    (.inl d, false, lit "Unknown target version: " ++ target)
  else if d.version = lit "1.0.0" ∧ target = lit "1.1.0" then
    (.inl (upgrade_1_0_to_1_1 d), true, lit "Upgraded from 1.0.0 to 1.1.0")
  else if d.version = lit "1.1.0" ∧ target = lit "2.0.0" then
    (.inr (upgrade_1_1_to_2_0 d now), true, lit "Upgraded from 1.1.0 to 2.0.0")
  else if d.version = lit "1.0.0" ∧ target = lit "2.0.0" then
    (.inr (upgrade_1_1_to_2_0 (upgrade_1_0_to_1_1 d) now), true,
      lit "Upgraded from 1.1.0 to 2.0.0")
  else (.inl d, false, lit "No upgrade path from " ++ d.version ++ lit " to " ++ target)

/-- The entry list of a `Pra1` instance's `models` dict. -/
def pra1ModelsEntries (d : Pra1) : List (Str × Jval) :=
  [(lit "fault_trees", .arr (d.fault_trees.map Jval.obj)),
   (lit "event_trees", .arr (d.event_trees.map Jval.obj)),
   (lit "basic_events", .arr (d.basic_events.map Jval.obj)),
   (lit "end_states", .arr (d.end_states.map Jval.obj))] ++
  (match d.initiating_events with
   | some j => [(lit "initiating_events", j)]
   | none => []) ++
  (match d.sequences with
   | some j => [(lit "sequences", j)]
   | none => []) ++
  d.modelsExtra

/-- The `models` dict of a `Pra1` as one `Jval`. -/
def pra1Models (d : Pra1) : Jval := .obj (pra1ModelsEntries d)

/-- The top-level entry list of a `Pra1`. -/
def pra1Entries (d : Pra1) : List (Str × Jval) :=
  [(lit "version", .str d.version),
   (lit "metadata", .obj d.metadata),
   (lit "models", pra1Models d)] ++
  (match d.analysis with
   | some a => [(lit "analysis", a)]
   | none => []) ++
  d.topExtra

/-- A `Pra1` as the top-level dict it models. -/
def pra1Top (d : Pra1) : Jval := .obj (pra1Entries d)

/-- The entry list of a `Pra2` instance's `models` dict (in the key
order of the 2.0.0 template it was built from). -/
def pra2ModelsEntries (p : Pra2) : List (Str × Jval) :=
  [(lit "fault_trees", .arr (p.fault_trees.map Jval.obj)),
   (lit "event_trees", .arr (p.event_trees.map Jval.obj)),
   (lit "basic_events", .arr (p.basic_events.map Jval.obj)),
   (lit "initiating_events", p.initiating_events),
   (lit "end_states", .arr (p.end_states.map Jval.obj)),
   (lit "sequences", p.sequences)]

/-- The top-level entry list of a `Pra2`. -/
def pra2Entries (p : Pra2) : List (Str × Jval) :=
  [(lit "version", .str p.version),
   (lit "metadata", .obj p.metadata),
   (lit "models", .obj (pra2ModelsEntries p)),
   (lit "analysis", p.analysis),
   (lit "lmp", p.lmp)]

/-- A `Pra2` as the top-level dict it models. -/
def pra2Top (p : Pra2) : Jval := .obj (pra2Entries p)

/-- The dict view of an `upgrade_schema` result. -/
def praAnyTop : Pra1 ⊕ Pra2 → Jval
  | .inl d => pra1Top d
  | .inr p => pra2Top p

/-- Remove every entry with the given key. -/
def dropKey : List (Str × Jval) → Str → List (Str × Jval)
  | [], _ => []
  | (k', v) :: rest, k => if k' = k then dropKey rest k else (k', v) :: dropKey rest k

/-- Erase `schema_version` inside a metadata dict. -/
def scrubMeta : Jval → Jval
  | .obj kvs => .obj (dropKey kvs (lit "schema_version"))
  | v => v

/-- Apply `scrubMeta` to the value of a `metadata` entry. -/
def scrubEntry (kv : Str × Jval) : Str × Jval :=
  if kv.1 = lit "metadata" then (kv.1, scrubMeta kv.2) else kv

/-- Erase the fields an upgrade is *expected* to rewrite — the top-level
`version` and the metadata `schema_version` — so that the additive-only
property can be stated as containment of everything else. -/
def scrubTop : Jval → Jval
  | .obj kvs => .obj ((dropKey kvs (lit "version")).map scrubEntry)
  | v => v

/-- Structural containment of JSON-like values: `Jsub a b` holds when
every piece of data in `a` is present (at the same dict keys and the
same array positions) in `b`; `b` may have additional dict keys.  This
is the formal reading of "the upgraded result preserves every field of
the source and never discards pre-existing data". -/
inductive Jsub : Jval → Jval → Prop where
  | str (s : Str) : Jsub (.str s) (.str s)
  | num (q : ℚ) : Jsub (.num q) (.num q)
  | bool (b : Bool) : Jsub (.bool b) (.bool b)
  | null : Jsub .null .null
  | arr (xs ys : List Jval) : xs.length = ys.length →
      (∀ i x y, xs.get? i = some x → ys.get? i = some y → Jsub x y) →
      Jsub (.arr xs) (.arr ys)
  | obj (kvs kvs' : List (Str × Jval)) :
      (∀ k, (aget kvs k).isSome → (aget kvs' k).isSome) →
      (∀ k v v', aget kvs k = some v → aget kvs' k = some v' → Jsub v v') →
      Jsub (.obj kvs) (.obj kvs')

/-- Claim C8's property at one upgrade invocation: after erasing the
version fields that the upgrade rewrites by design, every field of the
source instance is still contained in the upgraded result. -/
def upgradePreservesFields (d : Pra1) (target now : Str) : Prop :=
  Jsub (scrubTop (pra1Top d)) (scrubTop (praAnyTop (upgrade_schema d target now).1))

/-!
## `vyom/extractor.py`, lines 91–310: the folding core of `analyze_files`

The directory walk, decoding and classification are I/O; what the claims
observe is how the per-file parsed fragments are folded into
`schema["saphire_data"]`.  `SaphireFragment` is a parsed file of one of
the five kinds the fold distinguishes (the output shapes of
`parse_ftl_file`, `parse_etl_file`, `parse_bei_file`, `parse_esd_file`
and the `sequence_list` parsers), and `analyze_files` folds them in
discovery order, mirroring extractor.py 152–276.  Python's per-file
`set()` of end states is modelled as a first-seen-ordered duplicate-free
list: CPython's set iteration order is unspecified, which can permute the
order in which a single file's new end states are appended, but not the
membership or the per-id uniqueness that the claims are about.
-/

structure FtlGate where
  id : Str
  typ : Str
  inputs : List Str
deriving DecidableEq, Repr

structure FtlTreeData where
  gates : List FtlGate
  basic_events : List Str
deriving DecidableEq, Repr

structure BeiEvent where
  id : Str
  probability : ℚ
  name : Option Str
  btype : Option Str
deriving DecidableEq, Repr

structure EsdState where
  id : Str
  name : Str
  description : Str
deriving DecidableEq, Repr

/-- An element of a `sequence_list` fragment (`parse_stl_file` sets all
fields; `parse_sql_file` / `parse_sqd_file` may omit some). -/
structure SeqListItem where
  id : Str
  name : Option Str
  description : Option Str
  end_state : Option Str
deriving DecidableEq, Repr

inductive SaphireFragment where
  | ftl (trees : List (Str × FtlTreeData))
  | etl (trees : List (Str × EtlTree))
  | bei (events : List BeiEvent)
  | esd (states : List EsdState)
  | seqList (seqs : List SeqListItem)

structure DocFaultTree where
  id : Str
  name : Str
  gates : List FtlGate
  basic_events : List Str
deriving DecidableEq, Repr

structure DocEventTree where
  id : Str
  name : Str
  top_events : List EtlTopEvent
  sequences : List EtlSequence
  node_descriptions : List (Str × Str)
  node_substitutions : List (Str × EtlNodeSub)
deriving DecidableEq, Repr

structure DocBasicEvent where
  id : Str
  name : Str
  probability : ℚ
  description : Str
deriving DecidableEq, Repr

structure DocEndState where
  id : Str
  name : Str
  description : Str
deriving DecidableEq, Repr

structure DocSequence where
  id : Str
  name : Str
  description : Str
  end_state : Str
deriving DecidableEq, Repr

/-- `schema["saphire_data"]` (the unified document's five collections). -/
structure SaphireData where
  fault_trees : List DocFaultTree
  event_trees : List DocEventTree
  basic_events : List DocBasicEvent
  end_states : List DocEndState
  sequences : List DocSequence
deriving DecidableEq, Repr

def emptySaphireData : SaphireData := ⟨[], [], [], [], []⟩

/-- extractor.py 198–204: add an end state inferred from a sequence's
`end_state` string, unless an end state with that id already exists. -/
def addEndStateFromId (l : List DocEndState) (es : Str) : List DocEndState :=
  if l.any (fun e => decide (e.id = es)) then l
  else l ++ [⟨es, es, lit "End state " ++ es⟩]

/-- extractor.py 230–238: add an explicit end state from an ESD fragment,
unless its id already exists. -/
def addEsdState (l : List DocEndState) (st : EsdState) : List DocEndState :=
  if l.any (fun e => decide (e.id = st.id)) then l
  else l ++ [⟨st.id, st.name, st.description⟩]

/-- extractor.py 255–264: add a sequence from a `sequence_list` fragment,
unless its id already exists. -/
def addSeqItem (l : List DocSequence) (sq : SeqListItem) : List DocSequence :=
  if l.any (fun s => decide (s.id = sq.id)) then l
  else l ++ [⟨sq.id, sq.name.getD sq.id, sq.description.getD [], sq.end_state.getD []⟩]

/-- extractor.py 216–222: the document entry built from a parsed basic
event. -/
def beiToDoc (e : BeiEvent) : DocBasicEvent :=
  ⟨e.id, e.name.getD e.id, e.probability, e.name.getD []⟩

/-- First-seen-order insertion into the per-file end-state set. -/
def insertEndState (set : List Str) (s : Str) : List Str :=
  if s ∈ set then set else set ++ [s]

/-- extractor.py 166–205: fold one parsed ETL fragment — append each
tree with a valid name (non-empty, not "unknown") as an event tree,
collect the non-blank stripped `end_state` strings of its sequences into
the per-file set, and finally add each collected end state that is not
already present. -/
def processEtlFragment (doc0 : SaphireData) (trees : List (Str × EtlTree)) : SaphireData :=
  let r := trees.foldl
    (fun (acc : SaphireData × List Str) nt =>
      if nt.1 = [] ∨ pyLower nt.1 = lit "unknown" then acc
      else
        let esSet := nt.2.sequences.foldl
          (fun st sq =>
            if sq.end_state ≠ [] ∧ pyStrip sq.end_state ≠ [] then
              insertEndState st (pyStrip sq.end_state)
            else st)
          acc.2
        ({ acc.1 with event_trees := acc.1.event_trees ++
            [⟨nt.1, nt.1, nt.2.top_events, nt.2.sequences,
              nt.2.node_descriptions, nt.2.node_substitutions⟩] }, esSet))
    (doc0, [])
  r.2.foldl (fun doc es => { doc with end_states := addEndStateFromId doc.end_states es }) r.1

/-- extractor.py 152–276: fold one parsed file into the document. -/
def processFragment (doc : SaphireData) : SaphireFragment → SaphireData
  | .ftl trees => trees.foldl
      (fun doc nt => { doc with fault_trees := doc.fault_trees ++
        [⟨nt.1, nt.1, nt.2.gates, nt.2.basic_events⟩] }) doc
  | .etl trees => processEtlFragment doc trees
  | .bei events => events.foldl
      (fun doc e => { doc with basic_events := doc.basic_events ++ [beiToDoc e] }) doc
  | .esd states => states.foldl
      (fun doc st => { doc with end_states := addEsdState doc.end_states st }) doc
  | .seqList seqs => seqs.foldl
      (fun doc sq => { doc with sequences := addSeqItem doc.sequences sq }) doc

/-- extractor.py 91–310: `analyze_files`, restricted to its observable
folding of parsed fragments (in file-discovery order) into
`schema["saphire_data"]`. -/
def analyze_files (frags : List SaphireFragment) : SaphireData :=
  frags.foldl processFragment emptySaphireData

/-!
## Concrete instances used by the claims
-/

/-- The spec §8 minimal two-tree ETL scenario input (claim C1). -/
def etlTwoTreeInput : Str :=
  lit "HTGR_PRA, T1, IE-T1 =\n^TOPS\nA,B\n^SEQUENCES\n*\nY, S1, , OK\n^EOS\nHTGR_PRA, T2, IE-T2 =\n^TOPS\nC,D\n^SEQUENCES\n*\nY, S2, , FAIL"

/-- The same two tree blocks concatenated without the `^EOS` line
(claim C4). -/
def etlNoEosInput : Str :=
  lit "HTGR_PRA, T1, IE-T1 =\n^TOPS\nA,B\n^SEQUENCES\n*\nY, S1, , OK\nHTGR_PRA, T2, IE-T2 =\n^TOPS\nC,D\n^SEQUENCES\n*\nY, S2, , FAIL"

/-- A minimal single-tree ETL input (claim C3). -/
def etlOneTreeInput : Str := lit "HTGR_PRA, T1, IE-T1 =\n^TOPS\nA,B"

/-- The two-tree scenario with one BOM before each tree header
(claim C3). -/
def etlPerHeaderBomInput : Str :=
  bomChar :: (lit "HTGR_PRA, T1, IE-T1 =\n^TOPS\nA,B\n^SEQUENCES\n*\nY, S1, , OK\n^EOS\n" ++
    bomChar :: lit "HTGR_PRA, T2, IE-T2 =\n^TOPS\nC,D\n^SEQUENCES\n*\nY, S2, , FAIL")

/-- Two basic-event fragments carrying the same event id (claim C5). -/
def dupBeiFrags : List SaphireFragment :=
  [.bei [⟨lit "B1", 1/2, none, none⟩], .bei [⟨lit "B1", 1/2, none, none⟩]]

/-- Dict lookup on a `Jval`. -/
def jGet (j : Jval) (k : Str) : Option Jval :=
  match j with
  | .obj kvs => aget kvs k
  | _ => none

/-- The dict body of a `Jval`, empty for non-dicts. -/
def objEntries : Jval → List (Str × Jval)
  | .obj kvs => kvs
  | _ => []

/-- The `event` label of the first element of a converted sequence's
path (claim C9). -/
def firstPathEventLabel (j : Jval) : Option Str :=
  match jGet j (lit "path") with
  | some (.arr (x :: _)) =>
    match jGet x (lit "event") with
    | some (.str e) => some e
    | _ => none
  | _ => none

/-- A sequence dict whose path is the single legacy string `"S"`
(claim C9). -/
def c9Seq : List (Str × Jval) := [(lit "path", .arr [.str (lit "S")])]

/-- `len(instance["models"]["fault_trees"])` of a schema instance value
(claim C10). -/
def modelsFaultTreeCount (j : Jval) : Option Nat :=
  match jGet j (lit "models") with
  | some mo =>
    match jGet mo (lit "fault_trees") with
    | some (.arr xs) => some xs.length
    | _ => none
  | none => none

/-- A fixed `datetime.now().isoformat()` stand-in; both calls of the
claim-C10 scenario receive the same timestamp, so the inequality proved
there is not an artefact of differing clocks. -/
def now0 : Str := lit "2025-01-01T00:00:00"

/-- A SAPHIRE model with exactly one fault tree (claim C10). -/
def oneFtModel : SaphireModel where
  project := ⟨some (lit "P"), none, none⟩
  fault_trees := [⟨some (lit "FT1"), some (lit "FT1"), none, [], [], none⟩]
  event_trees := []
  basic_events := []
  end_states := []

/-- A valid version-1.1.0 instance that carries data in a pre-existing
`lmp` top-level section (claim C8): the spec calls `lmp` an opaque
passthrough structure, and the code's own validator accepts the
instance. -/
def lmpCarrier : Pra1 where
  version := lit "1.1.0"
  metadata := [(lit "title", .str (lit "My Model"))]
  fault_trees := []
  event_trees := []
  basic_events := []
  end_states := []
  initiating_events := none
  sequences := none
  modelsExtra := []
  analysis := none
  topExtra := [(lit "lmp", .obj [(lit "lbes", .arr [.str (lit "LBE-1")])])]

/-- A version-1.1.0 instance of the standard shape (claim C8's amended
statement and witness). -/
def stdInstance : Pra1 where
  version := lit "1.1.0"
  metadata := [(lit "title", .str (lit "My Model")), (lit "schema_version", .str (lit "1.1.0"))]
  fault_trees := [[(lit "id", .str (lit "FT1")), (lit "gates", .arr [])]]
  event_trees := []
  basic_events := []
  end_states := []
  initiating_events := none
  sequences := none
  modelsExtra := []
  analysis := none
  topExtra := []

/-- First `to_openpra` call of the claim-C10 scenario, on the
fresh-process template. -/
def c10run1 : Jval × OpenpraTemplate := to_openpra oneFtModel now0 OPENPRA_SCHEMA

/-- Second `to_openpra` call, same input, same process. -/
def c10run2 : Jval × OpenpraTemplate := to_openpra oneFtModel now0 c10run1.2

/-- A `create_empty_schema()` call made after the two conversions. -/
def c10run3 : Str × OpenpraTemplate := create_empty_schema none now0 c10run2.2

/-!
# Theorems
-/

set_option maxRecDepth 100000

/-- C1: on the spec's minimal two-tree ETL scenario input,
`parse_etl_file` returns exactly two event trees keyed `T1` and `T2`
(in that order), each with exactly 2 top events, and each with exactly
one sequence whose end state is `OK` for `T1` and `FAIL` for `T2`. -/
theorem c1_minimal_two_tree_scenario :
    (parse_etl_file etlTwoTreeInput).event_trees.map Prod.fst = [lit "T1", lit "T2"] ∧
    (parse_etl_file etlTwoTreeInput).event_trees.map (fun nt => nt.2.top_events.length) = [2, 2] ∧
    (parse_etl_file etlTwoTreeInput).event_trees.map (fun nt => nt.2.sequences.map EtlSequence.end_state) =
      [[lit "OK"], [lit "FAIL"]] := by
  decide

/-- C2 (counterexample): on the empty string, `parse_etl_file` does
return zero trees, but its `errors` list is *empty* — the claimed
non-empty errors list is refuted (the warning of saphire.py 525–528
fires only when fewer trees than blocks-minus-one are found, and the
empty input yields one block, so the bound is `0 < 0`). -/
theorem c2_empty_input_counterexample :
    ¬ ((parse_etl_file []).event_trees.length = 0 ∧ (parse_etl_file []).errors ≠ []) := by
  decide

/-- C2 (amended): the empty string parses to zero event trees and an
empty errors list; the parse is a total function, so no exception is
raised. -/
theorem c2_empty_input_amended :
    parse_etl_file [] = ⟨lit "event_tree_logic", [], []⟩ := by
  decide

/-- C4 (counterexample): for the two well-formed tree blocks concatenated
without an intervening `^EOS`, `parse_etl_file` neither discovers both
trees nor reports any error — refuting the claimed disjunction. -/
theorem c4_missing_eos_counterexample :
    ¬ (((aget (parse_etl_file etlNoEosInput).event_trees (lit "T1")).isSome ∧
        (aget (parse_etl_file etlNoEosInput).event_trees (lit "T2")).isSome) ∨
       (parse_etl_file etlNoEosInput).errors ≠ []) := by
  decide

/-- C4 (amended): without an `^EOS` the two blocks form a single block:
only `T1` is discovered, the second header line is ignored, the second
block's `^TOPS` and `^SEQUENCES` sections are folded into `T1` (which
ends up with top events `A,B,C,D` and sequences `S1`,`S2`), and the
errors list is empty — the missing-tree warning compares against the
`^EOS`-block count only. -/
theorem c4_missing_eos_amended :
    parse_etl_file etlNoEosInput =
      ⟨lit "event_tree_logic",
        [(lit "T1",
          ⟨[⟨lit "A", lit "A"⟩, ⟨lit "B", lit "B"⟩, ⟨lit "C", lit "C"⟩, ⟨lit "D", lit "D"⟩],
            [⟨lit "S1", lit "OK", []⟩, ⟨lit "S2", lit "FAIL", []⟩], [], []⟩)],
        []⟩ := by
  decide

/-- C3 (counterexample): three leading BOM characters are *not* all
stripped — the content-level strip removes one (saphire.py 335–337) and
the block-level strip removes one more (349–351), so with three BOMs the
header no longer matches and the tree count changes from 1 to 0,
refuting "strips any number of leading BOM characters". -/
theorem c3_bom_counterexample :
    (parse_etl_file etlOneTreeInput).event_trees.length = 1 ∧
    (parse_etl_file (bomChar :: bomChar :: bomChar :: etlOneTreeInput)).event_trees.length = 0 := by
  decide

/-- C3 (amended): `parse_etl_file` strips a single leading BOM from the
whole content and a single BOM at the start of each `^EOS` block.
Consequently a single BOM prepended to content that does not already
start with a BOM leaves the entire parse unchanged, and one BOM before
every tree header of the two-tree scenario yields the same parse as the
BOM-free content; three or more leading BOMs can change the number of
trees discovered (see the counterexample). -/
theorem c3_bom_amended :
    (∀ c : Str, pyStartswith [bomChar] c = false →
      parse_etl_file (bomChar :: c) = parse_etl_file c) ∧
    parse_etl_file etlPerHeaderBomInput = parse_etl_file etlTwoTreeInput := by
  constructor
  · intro c h
    have h1 : pyStartswith [bomChar] (bomChar :: c) = true := by
      simp [pyStartswith, List.isPrefixOf]
    unfold parse_etl_file
    rw [h1, h]
    simp
  · decide

/-- Witness for the amended C3: the single-tree input does not start
with a BOM, and prepending one BOM preserves the parse. -/
theorem c3_bom_amended_witness :
    pyStartswith [bomChar] etlOneTreeInput = false ∧
    parse_etl_file (bomChar :: etlOneTreeInput) = parse_etl_file etlOneTreeInput :=
  ⟨by decide, c3_bom_amended.1 etlOneTreeInput (by decide)⟩

/-- C10: `create_empty_schema` hands out the template's nested objects,
so `to_openpra`'s appends leak into later instances: on the same
one-fault-tree input, the first conversion returns 1 fault tree, the
second returns 2, the two outputs differ, and even a plain
`create_empty_schema()` instance created afterwards already contains the
2 accumulated fault trees. -/
theorem c10_shared_template_state :
    modelsFaultTreeCount c10run1.1 = some 1 ∧
    modelsFaultTreeCount c10run2.1 = some 2 ∧
    c10run1.1 ≠ c10run2.1 ∧
    modelsFaultTreeCount (templateSnapshot c10run3.1 c10run3.2) = some 2 := by
  refine ⟨by decide, by decide, ?_, by decide⟩
  intro h
  exact absurd (congrArg modelsFaultTreeCount h) (by decide)

/-- The accumulator-passing path loop equals the positional spec
rendering: the `Event<N>` counter of the loop is the length of the
output accumulated so far. -/
theorem convertPathGo_eq_spec (xs : List Jval) :
    ∀ acc, convertPathGo xs acc = acc ++ convertPathSpec xs acc.length := by
  induction xs with
  | nil => intro acc; simp [convertPathGo, convertPathSpec]
  | cons b rest ih =>
    intro acc
    cases b with
    | obj kvs =>
      by_cases h : (aget kvs (lit "event")).isSome ∧ (aget kvs (lit "state")).isSome
      · simp only [convertPathGo, convertPathSpec, if_pos h, ih]
        simp [List.append_assoc]
      · simp only [convertPathGo, convertPathSpec, if_neg h, ih]
    | str s =>
      simp only [convertPathGo, convertPathSpec, legacyPathElem, ih]
      simp [List.append_assoc]
    | num q => simp [convertPathGo, convertPathSpec, ih]
    | bool b => simp [convertPathGo, convertPathSpec, ih]
    | null => simp [convertPathGo, convertPathSpec, ih]
    | arr a => simp [convertPathGo, convertPathSpec, ih]

/-- C9 (counterexample): a sequence whose path is the single bare string
`"S"` converts to a path whose first element is labelled `Event1`, not
`Event0` — the synthesized index is the current output-path length *plus
one*, refuting "N is the sequence's current path length at the moment
the element is converted" (which is 0 here). -/
theorem c9_event_label_counterexample :
    (convert_sequences [c9Seq]).map firstPathEventLabel = [some (lit "Event1")] ∧
    (convert_sequences [c9Seq]).map firstPathEventLabel ≠ [some (lit "Event0")] := by
  decide

/-- C9 (amended): `convert_sequences` equals its spec-side rendering in
which a structured `{event, state}` element passes through as
`{event, success: state}`, other non-string elements are skipped, and a
bare string at (1-based) output position `n` becomes
`{event: "Event<n>", success: upper(s) ∈ {S, SUCCESS}}` — i.e. the label
index is the current path length *plus one*. -/
theorem c9_sequence_path_amended :
    ∀ seqs, convert_sequences seqs = convert_sequences_spec seqs := by
  intro seqs
  simp only [convert_sequences, convert_sequences_spec]
  apply List.map_congr_left
  intro sq _
  unfold convertOneSequence
  simp only [convertPathGo_eq_spec, List.nil_append, List.length_nil]

/-- Witness for the amended C9 at the concrete legacy-path sequence. -/
theorem c9_sequence_path_amended_witness :
    convert_sequences [c9Seq] = convert_sequences_spec [c9Seq] :=
  c9_sequence_path_amended [c9Seq]

/-- A fold preserves any invariant its step preserves. -/
theorem foldl_inv {α σ : Type} (P : σ → Prop) (f : σ → α → σ)
    (hstep : ∀ s a, P s → P (f s a)) : ∀ (l : List α) (s : σ), P s → P (l.foldl f s) := by
  intro l
  induction l with
  | nil => intro s h; simpa using h
  | cons a rest ih => intro s h; exact ih (f s a) (hstep s a h)

/-- Claim C5's invariant: the end-state and sequence collections carry
pairwise-distinct ids. -/
abbrev dedupInv (doc : SaphireData) : Prop :=
  ((doc.end_states.map DocEndState.id).Nodup) ∧ ((doc.sequences.map DocSequence.id).Nodup)

/-- The guarded end-state insertion keeps ids duplicate-free. -/
theorem nodup_addEndStateFromId (l : List DocEndState) (es : Str)
    (h : (l.map DocEndState.id).Nodup) :
    ((addEndStateFromId l es).map DocEndState.id).Nodup := by
  unfold addEndStateFromId
  split_ifs with hany
  · exact h
  · have hnotin : es ∉ l.map DocEndState.id := by
      intro hmem
      obtain ⟨e, he, heq⟩ := List.mem_map.mp hmem
      exact hany (List.any_eq_true.mpr ⟨e, he, by simp [heq]⟩)
    rw [List.map_append]
    refine List.Nodup.append h (by simp) ?_
    intro a ha hb
    simp only [List.map_cons, List.map_nil, List.mem_singleton] at hb
    subst hb
    exact hnotin ha

/-- The guarded explicit-end-state insertion keeps ids duplicate-free. -/
theorem nodup_addEsdState (l : List DocEndState) (st : EsdState)
    (h : (l.map DocEndState.id).Nodup) :
    ((addEsdState l st).map DocEndState.id).Nodup := by
  unfold addEsdState
  split_ifs with hany
  · exact h
  · have hnotin : st.id ∉ l.map DocEndState.id := by
      intro hmem
      obtain ⟨e, he, heq⟩ := List.mem_map.mp hmem
      exact hany (List.any_eq_true.mpr ⟨e, he, by simp [heq]⟩)
    rw [List.map_append]
    refine List.Nodup.append h (by simp) ?_
    intro a ha hb
    simp only [List.map_cons, List.map_nil, List.mem_singleton] at hb
    subst hb
    exact hnotin ha

/-- The guarded sequence insertion keeps ids duplicate-free. -/
theorem nodup_addSeqItem (l : List DocSequence) (sq : SeqListItem)
    (h : (l.map DocSequence.id).Nodup) :
    ((addSeqItem l sq).map DocSequence.id).Nodup := by
  unfold addSeqItem
  split_ifs with hany
  · exact h
  · have hnotin : sq.id ∉ l.map DocSequence.id := by
      intro hmem
      obtain ⟨e, he, heq⟩ := List.mem_map.mp hmem
      exact hany (List.any_eq_true.mpr ⟨e, he, by simp [heq]⟩)
    rw [List.map_append]
    refine List.Nodup.append h (by simp) ?_
    intro a ha hb
    simp only [List.map_cons, List.map_nil, List.mem_singleton] at hb
    subst hb
    exact hnotin ha

/-- Folding one fragment into the document preserves the id-uniqueness
of the end-state and sequence collections. -/
theorem processFragment_dedupInv (doc : SaphireData) (fr : SaphireFragment)
    (h : dedupInv doc) : dedupInv (processFragment doc fr) := by
  cases fr with
  | ftl trees =>
    show dedupInv (trees.foldl _ doc)
    refine foldl_inv dedupInv _ ?_ trees doc h
    exact fun s a hs => hs
  | bei events =>
    show dedupInv (events.foldl _ doc)
    refine foldl_inv dedupInv _ ?_ events doc h
    exact fun s a hs => hs
  | esd states =>
    show dedupInv (states.foldl _ doc)
    refine foldl_inv dedupInv _ ?_ states doc h
    exact fun s a hs => ⟨nodup_addEsdState _ _ hs.1, hs.2⟩
  | seqList seqs =>
    show dedupInv (seqs.foldl _ doc)
    refine foldl_inv dedupInv _ ?_ seqs doc h
    exact fun s a hs => ⟨hs.1, nodup_addSeqItem _ _ hs.2⟩
  | etl trees =>
    show dedupInv (processEtlFragment doc trees)
    unfold processEtlFragment
    refine foldl_inv dedupInv _ ?_ _ _ ?_
    · exact fun s a hs => ⟨nodup_addEndStateFromId _ _ hs.1, hs.2⟩
    · refine foldl_inv (fun (p : SaphireData × List Str) => dedupInv p.1) _ ?_ trees (doc, []) h
      intro s a hs
      dsimp only
      split
      · exact hs
      · exact hs

/-- C5 (counterexample): two basic-event fragments carrying the same id
`B1` yield two `B1` entries in the document's `basic_events` — the
fold of extractor.py 211–224 appends unconditionally, refuting the
claimed per-id deduplication of every collection. -/
theorem c5_dedup_counterexample :
    (analyze_files dupBeiFrags).basic_events.map DocBasicEvent.id = [lit "B1", lit "B1"] ∧
    ¬ ((analyze_files dupBeiFrags).basic_events.map DocBasicEvent.id).Nodup := by
  decide

/-- C5 (amended): only the `end_states` and `sequences` collections are
deduplicated by id — for every fragment list those two collections end
up with pairwise-distinct ids, while `fault_trees`, `event_trees` and
`basic_events` are appended without any id check (see the
counterexample). -/
theorem c5_dedup_amended (frags : List SaphireFragment) :
    ((analyze_files frags).end_states.map DocEndState.id).Nodup ∧
    ((analyze_files frags).sequences.map DocSequence.id).Nodup :=
  foldl_inv dedupInv processFragment processFragment_dedupInv frags
    emptySaphireData ⟨List.nodup_nil, List.nodup_nil⟩

/-- Witness for the amended C5 at the concrete duplicate-id fragment
list. -/
theorem c5_dedup_amended_witness :
    ((analyze_files dupBeiFrags).end_states.map DocEndState.id).Nodup ∧
    ((analyze_files dupBeiFrags).sequences.map DocSequence.id).Nodup :=
  c5_dedup_amended dupBeiFrags

/-- `validate_basic_event` on a candidate with all three fields present
and a finite numeric probability reduces to the range test. -/
theorem validate_basic_event_num (i n : PyVal) (q : ℚ) :
    validate_basic_event ⟨some i, some n, some (.num (.fin q))⟩ =
      if q < 0 ∨ 1 < q then
        (false, lit "Probability must be a number between 0 and 1, got: " ++
          pyNumStr (.fin q))
      else (true, lit "Valid") := by
  simp [validate_basic_event, pyValIsNumber, pyValNumVal, pyNumLt, pyValStr]

/-- C6 (counterexample): a candidate whose probability is `float("nan")`
is returned *valid* — `nan < 0` and `nan > 1` are both false, so the
rejection branch of saphire.py 119 is not taken — although `nan` is not
a number lying in `[0, 1]`.  This refutes the claimed "valid if and only
if the probability lies in [0,1]". -/
theorem c6_nan_probability_counterexample :
    validate_basic_event ⟨some (.str (lit "B1")), some (.str (lit "B1")),
      some (.num .nan)⟩ = (true, lit "Valid") ∧
    (∀ q : ℚ, ¬ (PyNum.nan = .fin q ∧ 0 ≤ q ∧ q ≤ 1)) :=
  ⟨rfl, fun _ h => PyNum.noConfusion h.1⟩

/-- C6 (amended): with `id`, `name` and a numeric `probability` present,
`validate_basic_event` accepts exactly the probabilities that are finite
numbers in `[0, 1]` *or* the float `nan` (for which both IEEE
comparisons of the range test are false); in particular it accepts 0,
0.01, 1 and `nan`, and rejects 1.5, -0.1 and the two infinities —
returning the invalid flag with a message, never a clamped value.  A
candidate missing any of the three fields, or whose probability is a
non-numeric value such as a string, is rejected. -/
theorem c6_validate_basic_event_range_amended :
    (∀ i n x, validate_basic_event ⟨some i, some n, some (.num x)⟩ = (true, lit "Valid") ↔
      (x = .nan ∨ ∃ q, x = .fin q ∧ 0 ≤ q ∧ q ≤ 1)) ∧
    (∀ i n, (validate_basic_event ⟨some i, some n, some (.num (.fin (3 / 2)))⟩).1 = false) ∧
    (∀ i n, (validate_basic_event ⟨some i, some n, some (.num (.fin (-1 / 10)))⟩).1 = false) ∧
    (∀ i n, (validate_basic_event ⟨some i, some n, some (.num .inf)⟩).1 = false) ∧
    (∀ i n, (validate_basic_event ⟨some i, some n, some (.num .ninf)⟩).1 = false) ∧
    (∀ i n, validate_basic_event ⟨some i, some n, some (.num (.fin 0))⟩ = (true, lit "Valid")) ∧
    (∀ i n, validate_basic_event ⟨some i, some n, some (.num (.fin (1 / 100)))⟩ =
      (true, lit "Valid")) ∧
    (∀ i n, validate_basic_event ⟨some i, some n, some (.num (.fin 1))⟩ = (true, lit "Valid")) ∧
    (∀ n p, (validate_basic_event ⟨none, n, p⟩).1 = false) ∧
    (∀ i p, (validate_basic_event ⟨some i, none, p⟩).1 = false) ∧
    (∀ i n, (validate_basic_event ⟨some i, some n, none⟩).1 = false) ∧
    (∀ i n s, (validate_basic_event ⟨some i, some n, some (.str s)⟩).1 = false) := by
  refine ⟨?_, ?_, ?_, ?_, ?_, ?_, ?_, ?_, ?_, ?_, ?_, ?_⟩
  · intro i n x
    cases x with
    | fin q =>
      rw [validate_basic_event_num]
      split_ifs with hcond
      · constructor
        · intro he
          exact absurd (congrArg Prod.fst he) (by simp)
        · rintro (h | ⟨q', hq, h0, h1⟩)
          · exact h.elim
          · injection hq with hq
            subst hq
            rcases hcond with hc | hc <;> linarith
      · push_neg at hcond
        exact ⟨fun _ => Or.inr ⟨q, rfl, by linarith [hcond.1], by linarith [hcond.2]⟩,
          fun _ => rfl⟩
    | nan => simp [validate_basic_event, pyValIsNumber, pyValNumVal, pyNumLt]
    | inf => simp [validate_basic_event, pyValIsNumber, pyValNumVal, pyNumLt]
    | ninf => simp [validate_basic_event, pyValIsNumber, pyValNumVal, pyNumLt]
  · intro i n; rw [validate_basic_event_num]; norm_num
  · intro i n; rw [validate_basic_event_num]; norm_num
  · intro i n; simp [validate_basic_event, pyValIsNumber, pyValNumVal, pyNumLt]
  · intro i n; simp [validate_basic_event, pyValIsNumber, pyValNumVal, pyNumLt]
  · intro i n; rw [validate_basic_event_num]; norm_num
  · intro i n; rw [validate_basic_event_num]; norm_num
  · intro i n; rw [validate_basic_event_num]; norm_num
  · intro n p; rfl
  · intro i p; rfl
  · intro i n; rfl
  · intro i n s; simp [validate_basic_event, pyValIsNumber]

/-- Witness for the amended C6: a concrete candidate with probability
`nan` is accepted, via the amended characterisation. -/
theorem c6_validate_basic_event_range_amended_witness :
    validate_basic_event ⟨some (.str (lit "E1")), some (.str (lit "Event 1")),
      some (.num .nan)⟩ = (true, lit "Valid") :=
  (c6_validate_basic_event_range_amended.1 (.str (lit "E1")) (.str (lit "Event 1"))
    .nan).mpr (Or.inl rfl)

/-- C7: `normalize_gate_type` is total and lands in the seven recognized
gate kinds for every input string; it fixes `AND`, `OR`, `NOT`, `XOR`,
`NAND`, `NOR` case-insensitively, expands the abbreviations
`A`, `O`, `N`, `X`, and maps every other string (e.g. `banana`) to
`OR`. -/
theorem c7_normalize_gate_type_total (s : Str) :
    normalize_gate_type s ∈ recognizedGateKinds ∧
    (pyUpper s ∈ sixGateKinds → normalize_gate_type s = pyUpper s) ∧
    (pyUpper s = lit "A" → normalize_gate_type s = lit "AND") ∧
    (pyUpper s = lit "O" → normalize_gate_type s = lit "OR") ∧
    (pyUpper s = lit "N" → normalize_gate_type s = lit "NOT") ∧
    (pyUpper s = lit "X" → normalize_gate_type s = lit "XOR") ∧
    (pyUpper s ∉ normalizeRecognizedInputs → normalize_gate_type s = lit "OR") := by
  unfold normalize_gate_type
  generalize pyUpper s = u
  dsimp only
  split_ifs with h1 h2 h3 h4 h5 h6 h7
  · refine ⟨?_, fun _ => rfl, ?_, ?_, ?_, ?_, ?_⟩
    · rcases h1 with h | h | h | h <;> rw [h] <;> decide
    · intro hA; rcases h1 with h | h | h | h <;> rw [h] at hA <;> exact absurd hA (by decide)
    · intro hO; rcases h1 with h | h | h | h <;> rw [h] at hO <;> exact absurd hO (by decide)
    · intro hN; rcases h1 with h | h | h | h <;> rw [h] at hN <;> exact absurd hN (by decide)
    · intro hX; rcases h1 with h | h | h | h <;> rw [h] at hX <;> exact absurd hX (by decide)
    · intro hmem; rcases h1 with h | h | h | h <;> rw [h] at hmem <;>
        exact absurd (by decide) hmem
  · refine ⟨by decide, ?_, fun _ => rfl, ?_, ?_, ?_, ?_⟩
    · intro hmem; rw [h2] at hmem; exact absurd hmem (by decide)
    · intro hO; rw [h2] at hO; exact absurd hO (by decide)
    · intro hN; rw [h2] at hN; exact absurd hN (by decide)
    · intro hX; rw [h2] at hX; exact absurd hX (by decide)
    · intro hmem; rw [h2] at hmem; exact absurd (by decide) hmem
  · refine ⟨by decide, ?_, ?_, fun _ => rfl, ?_, ?_, fun _ => rfl⟩
    · intro hmem; rw [h3] at hmem; exact absurd hmem (by decide)
    · intro hA; rw [h3] at hA; exact absurd hA (by decide)
    · intro hN; rw [h3] at hN; exact absurd hN (by decide)
    · intro hX; rw [h3] at hX; exact absurd hX (by decide)
  · refine ⟨by decide, ?_, ?_, ?_, fun _ => rfl, ?_, ?_⟩
    · intro hmem; rw [h4] at hmem; exact absurd hmem (by decide)
    · intro hA; rw [h4] at hA; exact absurd hA (by decide)
    · intro hO; rw [h4] at hO; exact absurd hO (by decide)
    · intro hX; rw [h4] at hX; exact absurd hX (by decide)
    · intro hmem; rw [h4] at hmem; exact absurd (by decide) hmem
  · refine ⟨by decide, ?_, ?_, ?_, ?_, fun _ => rfl, ?_⟩
    · intro hmem; rw [h5] at hmem; exact absurd hmem (by decide)
    · intro hA; rw [h5] at hA; exact absurd hA (by decide)
    · intro hO; rw [h5] at hO; exact absurd hO (by decide)
    · intro hN; rw [h5] at hN; exact absurd hN (by decide)
    · intro hmem; rw [h5] at hmem; exact absurd (by decide) hmem
  · refine ⟨by decide, ?_, ?_, ?_, ?_, ?_, ?_⟩
    · intro hmem
      rw [h6]
    · intro hA; rw [h6] at hA; exact absurd hA (by decide)
    · intro hO; rw [h6] at hO; exact absurd hO (by decide)
    · intro hN; rw [h6] at hN; exact absurd hN (by decide)
    · intro hX; rw [h6] at hX; exact absurd hX (by decide)
    · intro hmem; rw [h6] at hmem; exact absurd (by decide) hmem
  · refine ⟨by decide, ?_, ?_, ?_, ?_, ?_, ?_⟩
    · intro hmem
      rw [h7]
    · intro hA; rw [h7] at hA; exact absurd hA (by decide)
    · intro hO; rw [h7] at hO; exact absurd hO (by decide)
    · intro hN; rw [h7] at hN; exact absurd hN (by decide)
    · intro hX; rw [h7] at hX; exact absurd hX (by decide)
    · intro hmem; rw [h7] at hmem; exact absurd (by decide) hmem
  · refine ⟨by decide, ?_, ?_, ?_, ?_, ?_, fun _ => rfl⟩
    · intro hmem
      simp [sixGateKinds] at hmem
      rcases hmem with h | h | h | h | h | h
      · exact absurd (Or.inl h) h1
      · exact absurd (Or.inr (Or.inl h)) h1
      · exact absurd (Or.inr (Or.inr (Or.inl h))) h1
      · exact absurd (Or.inr (Or.inr (Or.inr h))) h1
      · exact absurd h h6
      · exact absurd h h7
    · intro hA; exact absurd hA h2
    · intro hO; exact absurd hO h3
    · intro hN; exact absurd hN h4
    · intro hX; exact absurd hX h5

/-- Witness for C7: the unrecognized string `banana` maps to `OR`, and
the lower-case abbreviation `x` maps to `XOR`. -/
theorem c7_normalize_gate_type_total_witness :
    normalize_gate_type (lit "banana") = lit "OR" ∧
    normalize_gate_type (lit "x") = lit "XOR" :=
  ⟨(c7_normalize_gate_type_total (lit "banana")).2.2.2.2.2.2 (by decide),
   (c7_normalize_gate_type_total (lit "x")).2.2.2.2.2.1 (by decide)⟩

/-- A successful dict lookup exhibits a member. -/
theorem aget_mem {β : Type} {m : List (Str × β)} {k : Str} {v : β}
    (h : aget m k = some v) : (k, v) ∈ m := by
  induction m with
  | nil => simp [aget] at h
  | cons kv rest ih =>
    obtain ⟨k', v'⟩ := kv
    simp only [aget] at h
    split_ifs at h with hk
    · injection h with hv
      subst hk hv
      exact List.mem_cons_self _ _
    · exact List.mem_cons_of_mem _ (ih h)

/-- A lookup that succeeds on the left part of an append succeeds on the
whole. -/
theorem aget_append_left {β : Type} {m m2 : List (Str × β)} {k : Str} {v : β}
    (h : aget m k = some v) : aget (m ++ m2) k = some v := by
  induction m with
  | nil => simp [aget] at h
  | cons kv rest ih =>
    obtain ⟨k', v'⟩ := kv
    simp only [aget] at h
    simp only [List.cons_append, aget]
    split_ifs at h ⊢ with hk
    · exact h
    · exact ih h

/-- Absent keys make `aset` a plain append. -/
theorem aset_of_not_mem {β : Type} {m : List (Str × β)} {k : Str} (v : β)
    (h : aget m k = none) : aset m k v = m ++ [(k, v)] := by
  induction m with
  | nil => rfl
  | cons kv rest ih =>
    obtain ⟨k', v'⟩ := kv
    simp only [aget] at h
    simp only [aset, List.cons_append]
    split_ifs at h ⊢ with hk
    · rw [ih h]

/-- `aset` writes the requested key. -/
theorem aget_aset_self {β : Type} (m : List (Str × β)) (k : Str) (v : β) :
    aget (aset m k v) k = some v := by
  induction m with
  | nil => simp [aset, aget]
  | cons kv rest ih =>
    obtain ⟨k', v'⟩ := kv
    simp only [aset]
    split_ifs with hk
    · simp [aget]
    · simp only [aget, if_neg hk]
      exact ih

/-- `aset` leaves other keys unchanged. -/
theorem aget_aset_ne {β : Type} (m : List (Str × β)) {k k0 : Str} (v : β)
    (h : k ≠ k0) : aget (aset m k0 v) k = aget m k := by
  induction m with
  | nil =>
    simp only [aset, aget]
    split_ifs with h2
    · exact absurd h2.symm h
    · rfl
  | cons kv rest ih =>
    obtain ⟨k', v'⟩ := kv
    simp only [aset]
    split_ifs with hk
    · subst hk
      simp only [aget]
      split_ifs with h2
      · exact absurd h2.symm h
      · rfl
    · simp only [aget]
      split_ifs
      · rfl
      · exact ih

/-- `dropKey` removes the key entirely. -/
theorem aget_dropKey_self (m : List (Str × Jval)) (k : Str) :
    aget (dropKey m k) k = none := by
  induction m with
  | nil => rfl
  | cons kv rest ih =>
    obtain ⟨k', v'⟩ := kv
    simp only [dropKey]
    split_ifs with hk
    · exact ih
    · simp only [aget, if_neg hk]
      exact ih

/-- `dropKey` leaves other keys unchanged. -/
theorem aget_dropKey_ne (m : List (Str × Jval)) {k k0 : Str} (h : k ≠ k0) :
    aget (dropKey m k0) k = aget m k := by
  induction m with
  | nil => rfl
  | cons kv rest ih =>
    obtain ⟨k', v'⟩ := kv
    simp only [dropKey]
    split_ifs with hk
    · subst hk
      simp only [aget]
      split_ifs with h2
      · exact absurd h2.symm h
      · exact ih
    · simp only [aget]
      split_ifs
      · rfl
      · exact ih

/-- Writing a key and then erasing it is the same as erasing it. -/
theorem dropKey_aset_self (m : List (Str × Jval)) (k : Str) (v : Jval) :
    dropKey (aset m k v) k = dropKey m k := by
  induction m with
  | nil => simp [aset, dropKey]
  | cons kv rest ih =>
    obtain ⟨k', v'⟩ := kv
    simp only [aset]
    split_ifs with hk
    · subst hk
      simp [dropKey]
    · simp only [dropKey]
      split_ifs
      simp [ih]

/-- `Jsub` is reflexive (strong induction on the term size). -/
theorem jsub_refl_aux : ∀ (n : Nat) (v : Jval), sizeOf v ≤ n → Jsub v v := by
  intro n
  induction n with
  | zero =>
    intro v hv
    cases v <;> simp at hv
  | succ n ih =>
    intro v hv
    cases v with
    | str s => exact .str s
    | num q => exact .num q
    | bool b => exact .bool b
    | null => exact .null
    | arr xs =>
      refine .arr xs xs rfl ?_
      intro i x y hx hy
      rw [hx] at hy
      injection hy with hxy
      subst hxy
      apply ih
      have hmem : x ∈ xs := List.get?_mem hx
      have h1 : sizeOf x < sizeOf xs := List.sizeOf_lt_of_mem hmem
      have h2 : sizeOf (Jval.arr xs) = 1 + sizeOf xs := by simp
      omega
    | obj kvs =>
      refine .obj kvs kvs (fun k h => h) ?_
      intro k v1 v2 h1 h2
      rw [h1] at h2
      injection h2 with h12
      subst h12
      apply ih
      have hmem : (k, v1) ∈ kvs := aget_mem h1
      have hs1 : sizeOf (k, v1) < sizeOf kvs := List.sizeOf_lt_of_mem hmem
      have hs2 : sizeOf (k, v1) = 1 + sizeOf k + sizeOf v1 := by simp
      have hs3 : sizeOf (Jval.obj kvs) = 1 + sizeOf kvs := by simp
      omega

/-- `Jsub` is reflexive. -/
theorem jsub_refl (v : Jval) : Jsub v v := jsub_refl_aux (sizeOf v) v le_rfl

/-- `Jsub` is transitive (strong induction on the size of the left
term). -/
theorem jsub_trans_aux : ∀ (n : Nat) (a b c : Jval), sizeOf a ≤ n →
    Jsub a b → Jsub b c → Jsub a c := by
  intro n
  induction n with
  | zero =>
    intro a b c ha _ _
    cases a <;> simp at ha
  | succ n ih =>
    intro a b c ha hab hbc
    cases hab with
    | str s => exact hbc
    | num q => exact hbc
    | bool b => exact hbc
    | null => exact hbc
    | arr xs ys hlen hpt =>
      cases hbc with
      | arr ys zs hlen2 hpt2 =>
        refine .arr xs zs (hlen.trans hlen2) ?_
        intro i x z hx hz
        have hlt : i < xs.length := by
          by_contra hge
          rw [List.get?_eq_none.mpr (Nat.le_of_not_lt hge)] at hx
          exact Option.noConfusion hx
        have hlt2 : i < ys.length := hlen ▸ hlt
        obtain ⟨y, hy⟩ : ∃ y, ys.get? i = some y := by
          cases hyy : ys.get? i with
          | none => exact absurd (List.get?_eq_none.mp hyy) (Nat.not_le_of_lt hlt2)
          | some y => exact ⟨y, rfl⟩
        have hsx : sizeOf x < sizeOf (Jval.arr xs) := by
          have hm := List.sizeOf_lt_of_mem (List.get?_mem hx)
          have h2 : sizeOf (Jval.arr xs) = 1 + sizeOf xs := by simp
          omega
        exact ih x y z (by omega) (hpt i x y hx hy) (hpt2 i y z hy hz)
    | obj kvs kvs2 hsome hpt =>
      cases hbc with
      | obj kvs2' kvs3 hsome2 hpt2 =>
        refine .obj kvs kvs3 (fun k hk => hsome2 k (hsome k hk)) ?_
        intro k v1 v3 h1 h3
        have h2s : (aget kvs2 k).isSome := hsome k (by rw [h1]; rfl)
        obtain ⟨v2, h2⟩ := Option.isSome_iff_exists.mp h2s
        have hsv : sizeOf v1 < sizeOf (Jval.obj kvs) := by
          have hmem := List.sizeOf_lt_of_mem (aget_mem h1)
          have hp : sizeOf (k, v1) = 1 + sizeOf k + sizeOf v1 := by simp
          have ho : sizeOf (Jval.obj kvs) = 1 + sizeOf kvs := by simp
          omega
        exact ih v1 v2 v3 (by omega) (hpt k v1 v2 h1 h2) (hpt2 k v2 v3 h2 h3)

/-- `Jsub` is transitive. -/
theorem jsub_trans {a b c : Jval} (hab : Jsub a b) (hbc : Jsub b c) : Jsub a c :=
  jsub_trans_aux (sizeOf a) a b c le_rfl hab hbc

/-- Extending two contained dicts with a common key and contained values
preserves containment. -/
theorem jsub_obj_cons (k : Str) {v v' : Jval} {A B : List (Str × Jval)}
    (hv : Jsub v v') (hAB : Jsub (.obj A) (.obj B)) :
    Jsub (.obj ((k, v) :: A)) (.obj ((k, v') :: B)) := by
  cases hAB with
  | obj _ _ hsome hpt =>
    refine .obj _ _ ?_ ?_
    · intro k' hk'
      simp only [aget] at hk' ⊢
      split_ifs at hk' ⊢ with hk
      · rfl
      · exact hsome k' hk'
    · intro k' w w' hw hw'
      simp only [aget] at hw hw'
      split_ifs at hw hw' with hk
      · injection hw with h1
        injection hw' with h2
        subst h1 h2
        exact hv
      · exact hpt k' w w' hw hw'

/-- Lookup through the metadata-scrubbing entry map. -/
theorem aget_map_scrubEntry (m : List (Str × Jval)) (k : Str) :
    aget (m.map scrubEntry) k =
      (aget m k).map (fun v => if k = lit "metadata" then scrubMeta v else v) := by
  induction m with
  | nil => rfl
  | cons kv rest ih =>
    obtain ⟨k0, v0⟩ := kv
    have hentry : scrubEntry (k0, v0) =
        if k0 = lit "metadata" then (k0, scrubMeta v0) else (k0, v0) := rfl
    by_cases h0 : k0 = lit "metadata"
    · rw [List.map_cons, hentry, if_pos h0]
      by_cases hk : k0 = k
      · subst hk
        simp [aget, h0]
      · simp only [aget, if_neg hk]
        exact ih
    · rw [List.map_cons, hentry, if_neg h0]
      by_cases hk : k0 = k
      · subst hk
        simp [aget, h0]
      · simp only [aget, if_neg hk]
        exact ih

/-- Containment of scrubbed top-level dicts follows from key-wise
relations on the unscrubbed dicts: presence is preserved (`version`
aside), non-`metadata` values are contained, and `metadata` values are
contained after scrubbing. -/
theorem jsub_scrubbed_of (A B : List (Str × Jval))
    (hs : ∀ k, k ≠ lit "version" → (aget A k).isSome → (aget B k).isSome)
    (hv : ∀ k v v', k ≠ lit "version" → k ≠ lit "metadata" →
      aget A k = some v → aget B k = some v' → Jsub v v')
    (hm : ∀ v v', aget A (lit "metadata") = some v → aget B (lit "metadata") = some v' →
      Jsub (scrubMeta v) (scrubMeta v')) :
    Jsub (scrubTop (.obj A)) (scrubTop (.obj B)) := by
  refine .obj _ _ ?_ ?_
  · intro k hk
    by_cases hver : k = lit "version"
    · subst hver
      rw [aget_map_scrubEntry, aget_dropKey_self] at hk
      simp at hk
    · rw [aget_map_scrubEntry, aget_dropKey_ne _ hver] at hk
      rw [aget_map_scrubEntry, aget_dropKey_ne _ hver]
      simp only [Option.isSome_map'] at hk ⊢
      exact hs k hver hk
  · intro k v v' hA hB
    by_cases hver : k = lit "version"
    · subst hver
      rw [aget_map_scrubEntry, aget_dropKey_self] at hA
      simp at hA
    · rw [aget_map_scrubEntry, aget_dropKey_ne _ hver] at hA hB
      by_cases hmet : k = lit "metadata"
      · subst hmet
        simp only [if_pos rfl, Option.map_eq_some'] at hA hB
        obtain ⟨w, hw, rfl⟩ := hA
        obtain ⟨w', hw', rfl⟩ := hB
        exact hm w w' hw hw'
      · simp only [if_neg hmet, Option.map_eq_some'] at hA hB
        obtain ⟨w, hw, rfl⟩ := hA
        obtain ⟨w', hw', rfl⟩ := hB
        exact hv k w w' hver hmet hw hw'

/-- `copyMeta` does not touch keys absent from the source. -/
theorem copyMeta_not_mem (src : List (Str × Jval)) :
    ∀ (tgt : List (Str × Jval)) (k : Str), k ∉ src.map Prod.fst →
      aget (copyMeta tgt src) k = aget tgt k := by
  induction src with
  | nil => intro tgt k _; rfl
  | cons kv rest ih =>
    intro tgt k hk
    obtain ⟨k0, v0⟩ := kv
    simp only [List.map_cons, List.mem_cons, not_or] at hk
    simp only [copyMeta, List.foldl_cons]
    rw [show (rest.foldl (fun acc kv =>
        if kv.1 = lit "schema_version" then acc else aset acc kv.1 kv.2)
        (if k0 = lit "schema_version" then tgt else aset tgt k0 v0)) =
      copyMeta (if k0 = lit "schema_version" then tgt else aset tgt k0 v0) rest from rfl]
    rw [ih _ k hk.2]
    split_ifs
    · rfl
    · exact aget_aset_ne tgt v0 hk.1

/-- `copyMeta` carries over every non-`schema_version` entry of a
duplicate-key-free source. -/
theorem copyMeta_preserves (src : List (Str × Jval)) :
    ∀ (tgt : List (Str × Jval)) (k : Str) (v : Jval),
      (src.map Prod.fst).Nodup → k ≠ lit "schema_version" →
      aget src k = some v → aget (copyMeta tgt src) k = some v := by
  induction src with
  | nil => intro tgt k v _ _ h; simp [aget] at h
  | cons kv rest ih =>
    intro tgt k v hnod hsv h
    obtain ⟨k0, v0⟩ := kv
    simp only [List.map_cons, List.nodup_cons] at hnod
    simp only [aget] at h
    simp only [copyMeta, List.foldl_cons]
    rw [show (rest.foldl (fun acc kv =>
        if kv.1 = lit "schema_version" then acc else aset acc kv.1 kv.2)
        (if k0 = lit "schema_version" then tgt else aset tgt k0 v0)) =
      copyMeta (if k0 = lit "schema_version" then tgt else aset tgt k0 v0) rest from rfl]
    split_ifs at h with hk0
    · injection h with hv
      subst hk0
      subst hv
      rw [copyMeta_not_mem rest _ _ hnod.1, if_neg hsv]
      exact aget_aset_self tgt _ _
    · exact ih _ k v hnod.2 hsv h

/-- Keys after an `aset` are the old keys, possibly with the new key
appended. -/
theorem mem_keys_aset {β : Type} (m : List (Str × β)) (k k' : Str) (v : β) :
    k' ∈ (aset m k v).map Prod.fst ↔ k' ∈ m.map Prod.fst ∨ k' = k := by
  induction m with
  | nil => simp [aset]
  | cons kv rest ih =>
    obtain ⟨k0, v0⟩ := kv
    simp only [aset]
    split_ifs with hk
    · subst hk
      simp only [List.map_cons, List.mem_cons]
      constructor
      · rintro (h | h)
        · exact Or.inr h
        · exact Or.inl (Or.inr h)
      · rintro (h | h) 
        · rcases h with h | h
          · exact Or.inl h
          · exact Or.inr h
        · exact Or.inl h
    · simp only [List.map_cons, List.mem_cons, ih]
      tauto

/-- `aset` preserves duplicate-freedom of the keys. -/
theorem nodup_keys_aset {β : Type} (m : List (Str × β)) (k : Str) (v : β)
    (h : (m.map Prod.fst).Nodup) : ((aset m k v).map Prod.fst).Nodup := by
  induction m with
  | nil => simp [aset]
  | cons kv rest ih =>
    obtain ⟨k0, v0⟩ := kv
    simp only [List.map_cons, List.nodup_cons] at h
    simp only [aset]
    split_ifs with hk
    · subst hk
      simp only [List.map_cons, List.nodup_cons]
      exact ⟨h.1, h.2⟩
    · simp only [List.map_cons, List.nodup_cons]
      refine ⟨?_, ih h.2⟩
      rw [mem_keys_aset]
      rintro (hmem | heq)
      · exact h.1 hmem
      · exact hk heq

/-- Adding the empty `attributes` object only extends a model dict. -/
theorem jsub_obj_addAttrs (e : List (Str × Jval)) :
    Jsub (.obj e) (.obj (addAttrsIfAbsent e)) := by
  unfold addAttrsIfAbsent
  split_ifs with hattr
  · exact jsub_refl _
  · have hnone : aget e (lit "attributes") = none := by
      cases h : aget e (lit "attributes") with
      | none => rfl
      | some w => rw [h] at hattr; exact absurd rfl hattr
    rw [aset_of_not_mem _ hnone]
    refine .obj _ _ ?_ ?_
    · intro k hk
      obtain ⟨w, hw⟩ := Option.isSome_iff_exists.mp hk
      rw [aget_append_left hw]
      rfl
    · intro k w w' hw hw'
      rw [aget_append_left hw] at hw'
      injection hw' with h
      subst h
      exact jsub_refl w

/-- The attribute-adding pass over a model collection only extends each
element. -/
theorem jsub_arr_addAttrs (l : List (List (Str × Jval))) :
    Jsub (.arr (l.map Jval.obj)) (.arr ((l.map addAttrsIfAbsent).map Jval.obj)) := by
  refine .arr _ _ (by simp) ?_
  intro i x y hx hy
  rw [List.get?_map] at hx hy
  rw [List.get?_map] at hy
  cases he : l.get? i with
  | none => rw [he] at hx; exact Option.noConfusion hx
  | some e =>
    rw [he] at hx hy
    simp only [Option.map_some'] at hx hy
    injection hx with hx
    injection hy with hy
    subst hx hy
    exact jsub_obj_addAttrs e

/-- Piecewise view of a `Pra1` top-level lookup. -/
theorem aget_pra1Entries (d : Pra1) (k : Str) :
    aget (pra1Entries d) k =
      if lit "version" = k then some (.str d.version)
      else if lit "metadata" = k then some (.obj d.metadata)
      else if lit "models" = k then some (pra1Models d)
      else aget ((match d.analysis with
        | some a => [(lit "analysis", a)]
        | none => []) ++ d.topExtra) k := rfl

/-- Piecewise view of a `Pra2` top-level lookup. -/
theorem aget_pra2Entries (p : Pra2) (k : Str) :
    aget (pra2Entries p) k =
      if lit "version" = k then some (.str p.version)
      else if lit "metadata" = k then some (.obj p.metadata)
      else if lit "models" = k then some (.obj (pra2ModelsEntries p))
      else if lit "analysis" = k then some p.analysis
      else if lit "lmp" = k then some p.lmp
      else none := rfl

/-- Piecewise view of a `Pra1` models lookup. -/
theorem aget_pra1ModelsEntries (d : Pra1) (k : Str) :
    aget (pra1ModelsEntries d) k =
      if lit "fault_trees" = k then some (.arr (d.fault_trees.map Jval.obj))
      else if lit "event_trees" = k then some (.arr (d.event_trees.map Jval.obj))
      else if lit "basic_events" = k then some (.arr (d.basic_events.map Jval.obj))
      else if lit "end_states" = k then some (.arr (d.end_states.map Jval.obj))
      else aget ((match d.initiating_events with
        | some j => [(lit "initiating_events", j)]
        | none => []) ++
        (match d.sequences with
         | some j => [(lit "sequences", j)]
         | none => []) ++ d.modelsExtra) k := rfl

/-- Piecewise view of a `Pra2` models lookup. -/
theorem aget_pra2ModelsEntries (p : Pra2) (k : Str) :
    aget (pra2ModelsEntries p) k =
      if lit "fault_trees" = k then some (.arr (p.fault_trees.map Jval.obj))
      else if lit "event_trees" = k then some (.arr (p.event_trees.map Jval.obj))
      else if lit "basic_events" = k then some (.arr (p.basic_events.map Jval.obj))
      else if lit "initiating_events" = k then some p.initiating_events
      else if lit "end_states" = k then some (.arr (p.end_states.map Jval.obj))
      else if lit "sequences" = k then some p.sequences
      else none := rfl

/-- The 1.0.0→1.1.0 step only extends the models collections. -/
theorem jsub_models_upg_1_0_to_1_1 (d : Pra1) :
    Jsub (pra1Models d) (pra1Models (upgrade_1_0_to_1_1 d)) := by
  show Jsub (.obj (pra1ModelsEntries d)) (.obj (pra1ModelsEntries (upgrade_1_0_to_1_1 d)))
  show Jsub
    (.obj ((lit "fault_trees", .arr (d.fault_trees.map Jval.obj)) ::
      (lit "event_trees", .arr (d.event_trees.map Jval.obj)) ::
      (lit "basic_events", .arr (d.basic_events.map Jval.obj)) ::
      (lit "end_states", .arr (d.end_states.map Jval.obj)) ::
      ((match d.initiating_events with
        | some j => [(lit "initiating_events", j)]
        | none => []) ++
       (match d.sequences with
        | some j => [(lit "sequences", j)]
        | none => []) ++ d.modelsExtra)))
    (.obj ((lit "fault_trees", .arr ((d.fault_trees.map addAttrsIfAbsent).map Jval.obj)) ::
      (lit "event_trees", .arr ((d.event_trees.map addAttrsIfAbsent).map Jval.obj)) ::
      (lit "basic_events", .arr ((d.basic_events.map addAttrsIfAbsent).map Jval.obj)) ::
      (lit "end_states", .arr ((d.end_states.map addAttrsIfAbsent).map Jval.obj)) ::
      ((match d.initiating_events with
        | some j => [(lit "initiating_events", j)]
        | none => []) ++
       (match d.sequences with
        | some j => [(lit "sequences", j)]
        | none => []) ++ d.modelsExtra)))
  exact jsub_obj_cons _ (jsub_arr_addAttrs _)
    (jsub_obj_cons _ (jsub_arr_addAttrs _)
      (jsub_obj_cons _ (jsub_arr_addAttrs _)
        (jsub_obj_cons _ (jsub_arr_addAttrs _) (jsub_refl _))))

/-- Claim C8, 1.0.0→1.1.0 step: the upgrade preserves (in the `Jsub`
sense, after erasing the version fields it rewrites by design) every
field of arbitrary source instances — including extra top-level keys,
extra models keys, and the optional sections. -/
theorem jsub_upgrade_1_0_to_1_1 (d : Pra1) :
    Jsub (scrubTop (pra1Top d)) (scrubTop (pra1Top (upgrade_1_0_to_1_1 d))) := by
  simp only [pra1Top]
  refine jsub_scrubbed_of _ _ ?_ ?_ ?_
  · intro k hver hk
    rw [aget_pra1Entries] at hk ⊢
    split_ifs at hk ⊢ with h1 h2 h3
    · exact absurd h1.symm hver
    · rfl
    · rfl
    · exact hk
  · intro k v v' hver hmet hA hB
    rw [aget_pra1Entries] at hA hB
    split_ifs at hA hB with h1 h2 h3
    · exact absurd h1.symm hver
    · exact absurd h2.symm hmet
    · injection hA with hA
      injection hB with hB
      subst hA
      subst hB
      exact jsub_models_upg_1_0_to_1_1 d
    · have hB' : aget ((match d.analysis with
        | some a => [(lit "analysis", a)]
        | none => []) ++ d.topExtra) k = some v' := hB
      rw [hA] at hB'
      injection hB' with hvv
      subst hvv
      exact jsub_refl v
  · intro v v' hA hB
    rw [aget_pra1Entries] at hA hB
    rw [if_neg (by decide), if_pos rfl] at hA hB
    injection hA with hA
    injection hB with hB
    subst hA
    subst hB
    show Jsub (scrubMeta (.obj d.metadata))
      (scrubMeta (.obj (aset d.metadata (lit "schema_version") (.str (lit "1.1.0")))))
    simp only [scrubMeta]
    rw [dropKey_aset_self]
    exact jsub_refl _

/-- The models lookup of the 1.1.0→2.0.0 upgrade result, in terms of the
source instance. -/
theorem aget_models_upg20 (d : Pra1) (now : Str) (k : Str) :
    aget (pra2ModelsEntries (upgrade_1_1_to_2_0 d now)) k =
      if lit "fault_trees" = k then some (.arr (d.fault_trees.map Jval.obj))
      else if lit "event_trees" = k then some (.arr (d.event_trees.map Jval.obj))
      else if lit "basic_events" = k then some (.arr (d.basic_events.map Jval.obj))
      else if lit "initiating_events" = k then some (d.initiating_events.getD (.arr []))
      else if lit "end_states" = k then some (.arr (d.end_states.map Jval.obj))
      else if lit "sequences" = k then some (d.sequences.getD (.arr []))
      else none := rfl

/-- For a source instance without extra models keys, the models lookup
collapses to a plain six-way chain (in the same key order as the 2.0.0
template, which is legitimate because the six keys are distinct). -/
theorem aget_pra1ModelsEntries_std (d : Pra1) (k : Str) (hmex : d.modelsExtra = []) :
    aget (pra1ModelsEntries d) k =
      if lit "fault_trees" = k then some (.arr (d.fault_trees.map Jval.obj))
      else if lit "event_trees" = k then some (.arr (d.event_trees.map Jval.obj))
      else if lit "basic_events" = k then some (.arr (d.basic_events.map Jval.obj))
      else if lit "initiating_events" = k then d.initiating_events
      else if lit "end_states" = k then some (.arr (d.end_states.map Jval.obj))
      else if lit "sequences" = k then d.sequences
      else none := by
  rw [aget_pra1ModelsEntries, hmex]
  by_cases h1 : lit "fault_trees" = k
  · rw [if_pos h1, if_pos h1]
  rw [if_neg h1, if_neg h1]
  by_cases h2 : lit "event_trees" = k
  · rw [if_pos h2, if_pos h2]
  rw [if_neg h2, if_neg h2]
  by_cases h3 : lit "basic_events" = k
  · rw [if_pos h3, if_pos h3]
  rw [if_neg h3, if_neg h3]
  by_cases h5 : lit "end_states" = k
  · rw [if_pos h5]
    rw [if_neg (fun hie => by rw [← hie] at h5; exact absurd h5 (by decide)), if_pos h5]
  rw [if_neg h5]
  rcases hie : d.initiating_events with _ | j <;> rcases hsq : d.sequences with _ | j2
  · by_cases h4 : lit "initiating_events" = k
    · rw [if_pos h4]
      simp [aget]
    · rw [if_neg h4, if_neg h5]
      by_cases h6 : lit "sequences" = k
      · rw [if_pos h6]
        simp [aget]
      · rw [if_neg h6]
        simp [aget]
  · by_cases h4 : lit "initiating_events" = k
    · rw [if_pos h4]
      subst h4
      simp only [List.nil_append, List.cons_append, aget]
      rw [if_neg (by decide)]
    · rw [if_neg h4, if_neg h5]
      by_cases h6 : lit "sequences" = k
      · rw [if_pos h6]
        subst h6
        simp only [List.nil_append, List.cons_append, aget, if_pos rfl]
        rfl
      · rw [if_neg h6]
        simp only [List.nil_append, List.cons_append, aget, if_neg h6]
  · by_cases h4 : lit "initiating_events" = k
    · rw [if_pos h4]
      subst h4
      simp only [List.cons_append, List.nil_append, aget, if_pos rfl]
      rfl
    · rw [if_neg h4, if_neg h5]
      simp only [List.cons_append, List.nil_append, aget, if_neg h4]
      simp
  · by_cases h4 : lit "initiating_events" = k
    · rw [if_pos h4]
      subst h4
      simp only [List.cons_append, List.nil_append, aget, if_pos rfl]
      rfl
    · rw [if_neg h4, if_neg h5]
      simp only [List.cons_append, List.nil_append, aget, if_neg h4]

/-- The 1.1.0→2.0.0 step carries the six model collections over (for a
source without extra models keys). -/
theorem jsub_models_upg_1_1_to_2_0 (d : Pra1) (now : Str) (hmex : d.modelsExtra = []) :
    Jsub (pra1Models d) (.obj (pra2ModelsEntries (upgrade_1_1_to_2_0 d now))) := by
  refine .obj _ _ ?_ ?_
  · intro k hk
    rw [aget_pra1ModelsEntries_std d k hmex] at hk
    rw [aget_models_upg20]
    split_ifs at hk ⊢ <;> first
      | rfl
      | (exact Option.isSome_iff_exists.mpr ⟨_, rfl⟩)
      | (simp at hk)
  · intro k v v' hA hB
    rw [aget_pra1ModelsEntries_std d k hmex] at hA
    rw [aget_models_upg20] at hB
    split_ifs at hA hB
    · injection hA with hA
      injection hB with hB
      subst hA
      subst hB
      exact jsub_refl _
    · injection hA with hA
      injection hB with hB
      subst hA
      subst hB
      exact jsub_refl _
    · injection hA with hA
      injection hB with hB
      subst hA
      subst hB
      exact jsub_refl _
    · injection hB with hB
      rw [hA] at hB
      simp only [Option.getD_some] at hB
      subst hB
      exact jsub_refl _
    · injection hA with hA
      injection hB with hB
      subst hA
      subst hB
      exact jsub_refl _
    · injection hB with hB
      rw [hA] at hB
      simp only [Option.getD_some] at hB
      subst hB
      exact jsub_refl _

/-- For a source instance without extra top-level keys, the top-level
lookup collapses to a plain four-way chain. -/
theorem aget_pra1Entries_std (d : Pra1) (k : Str) (hex : d.topExtra = []) :
    aget (pra1Entries d) k =
      if lit "version" = k then some (.str d.version)
      else if lit "metadata" = k then some (.obj d.metadata)
      else if lit "models" = k then some (pra1Models d)
      else if lit "analysis" = k then d.analysis
      else none := by
  rw [aget_pra1Entries, hex]
  by_cases h1 : lit "version" = k
  · rw [if_pos h1, if_pos h1]
  rw [if_neg h1, if_neg h1]
  by_cases h2 : lit "metadata" = k
  · rw [if_pos h2, if_pos h2]
  rw [if_neg h2, if_neg h2]
  by_cases h3 : lit "models" = k
  · rw [if_pos h3, if_pos h3]
  rw [if_neg h3, if_neg h3]
  rcases han : d.analysis with _ | a
  · by_cases h4 : lit "analysis" = k
    · rw [if_pos h4]
      simp [aget]
    · rw [if_neg h4]
      simp [aget]
  · by_cases h4 : lit "analysis" = k
    · rw [if_pos h4]
      subst h4
      simp only [List.cons_append, List.nil_append, aget, if_pos rfl]
      rfl
    · rw [if_neg h4]
      simp only [List.cons_append, List.nil_append, aget, if_neg h4]

/-- Claim C8, 1.1.0→2.0.0 step: for a standard-shaped source with
duplicate-free metadata keys, the rebuild preserves (after scrubbing the
version fields) the metadata entries, the model collections and the
analysis section. -/
theorem jsub_upgrade_1_1_to_2_0 (d : Pra1) (now : Str)
    (hex : d.topExtra = []) (hmex : d.modelsExtra = [])
    (hnod : (d.metadata.map Prod.fst).Nodup) :
    Jsub (scrubTop (pra1Top d)) (scrubTop (pra2Top (upgrade_1_1_to_2_0 d now))) := by
  simp only [pra1Top, pra2Top]
  refine jsub_scrubbed_of _ _ ?_ ?_ ?_
  · intro k hver hk
    rw [aget_pra1Entries_std d k hex] at hk
    rw [aget_pra2Entries]
    split_ifs at hk ⊢ <;> simp_all
  · intro k v v' hver hmet hA hB
    rw [aget_pra1Entries_std d k hex] at hA
    rw [aget_pra2Entries] at hB
    split_ifs at hA hB with h1 h2 h3 h4
    · exact absurd h1.symm hver
    · exact absurd h2.symm hmet
    · injection hA with hA
      injection hB with hB
      subst hA
      subst hB
      exact jsub_models_upg_1_1_to_2_0 d now hmex
    · injection hB with hB
      simp only [upgrade_1_1_to_2_0] at hB
      rw [hA] at hB
      simp only [Option.getD_some] at hB
      subst hB
      exact jsub_refl _
  · intro v v' hA hB
    rw [aget_pra1Entries_std d (lit "metadata") hex, if_neg (by decide), if_pos rfl] at hA
    rw [aget_pra2Entries, if_neg (by decide), if_pos rfl] at hB
    injection hA with hA
    injection hB with hB
    subst hA
    subst hB
    show Jsub (scrubMeta (.obj d.metadata))
      (scrubMeta (.obj (copyMeta
        (create_empty_schema (some (lit "2.0.0")) now OPENPRA_SCHEMA).2.metadata d.metadata)))
    simp only [scrubMeta]
    refine .obj _ _ ?_ ?_
    · intro k' hk'
      by_cases hsv : k' = lit "schema_version"
      · subst hsv
        rw [aget_dropKey_self] at hk'
        simp at hk'
      · rw [aget_dropKey_ne _ hsv] at hk'
        rw [aget_dropKey_ne _ hsv]
        obtain ⟨w, hw⟩ := Option.isSome_iff_exists.mp hk'
        rw [copyMeta_preserves d.metadata _ k' w hnod hsv hw]
        rfl
    · intro k' w w' hw hw'
      by_cases hsv : k' = lit "schema_version"
      · subst hsv
        rw [aget_dropKey_self] at hw
        exact Option.noConfusion hw
      · rw [aget_dropKey_ne _ hsv] at hw hw'
        rw [copyMeta_preserves d.metadata _ k' w hnod hsv hw] at hw'
        injection hw' with hww
        subst hww
        exact jsub_refl w

/-- Dispatch: a 1.0.0 instance upgraded to 1.1.0 takes the
`upgrade_1_0_to_1_1` branch. -/
theorem upgrade_schema_10_11 (d : Pra1) (now : Str) (hver : d.version = lit "1.0.0") :
    upgrade_schema d (lit "1.1.0") now =
      (.inl (upgrade_1_0_to_1_1 d), true, lit "Upgraded from 1.0.0 to 1.1.0") := by
  unfold upgrade_schema
  rw [hver, if_neg (by decide), if_neg (by decide), if_neg (by decide),
    if_pos (show _ ∧ _ from ⟨rfl, rfl⟩)]

/-- Dispatch: a 1.1.0 instance upgraded to 2.0.0 takes the
`upgrade_1_1_to_2_0` branch. -/
theorem upgrade_schema_11_20 (d : Pra1) (now : Str) (hver : d.version = lit "1.1.0") :
    upgrade_schema d (lit "2.0.0") now =
      (.inr (upgrade_1_1_to_2_0 d now), true, lit "Upgraded from 1.1.0 to 2.0.0") := by
  unfold upgrade_schema
  rw [hver, if_neg (by decide), if_neg (by decide), if_neg (by decide),
    if_neg (by decide), if_pos (show _ ∧ _ from ⟨rfl, rfl⟩)]

/-- Dispatch: a 1.0.0 instance upgraded to 2.0.0 composes the two steps. -/
theorem upgrade_schema_10_20 (d : Pra1) (now : Str) (hver : d.version = lit "1.0.0") :
    upgrade_schema d (lit "2.0.0") now =
      (.inr (upgrade_1_1_to_2_0 (upgrade_1_0_to_1_1 d) now), true,
        lit "Upgraded from 1.1.0 to 2.0.0") := by
  unfold upgrade_schema
  rw [hver, if_neg (by decide), if_neg (by decide), if_neg (by decide),
    if_neg (by decide), if_neg (by decide), if_pos (show _ ∧ _ from ⟨rfl, rfl⟩)]

/-- The composed 1.0.0→2.0.0 path preserves the scrubbed fields of a
standard-shaped source. -/
theorem jsub_upgrade_1_0_to_2_0 (d : Pra1) (now : Str)
    (hex : d.topExtra = []) (hmex : d.modelsExtra = [])
    (hnod : (d.metadata.map Prod.fst).Nodup) :
    Jsub (scrubTop (pra1Top d))
      (scrubTop (pra2Top (upgrade_1_1_to_2_0 (upgrade_1_0_to_1_1 d) now))) :=
  jsub_trans (jsub_upgrade_1_0_to_1_1 d)
    (jsub_upgrade_1_1_to_2_0 (upgrade_1_0_to_1_1 d) now hex hmex
      (nodup_keys_aset d.metadata (lit "schema_version") (.str (lit "1.1.0")) hnod))

/-- Inversion of `Jsub` on dicts: the pointwise containment of values. -/
theorem jsub_obj_inv {kvs kvs2 : List (Str × Jval)} (h : Jsub (.obj kvs) (.obj kvs2)) :
    ∀ k v v', aget kvs k = some v → aget kvs2 k = some v' → Jsub v v' := by
  cases h with
  | obj _ _ hs hv => exact hv

/-- Inversion of `Jsub` on arrays: the lengths agree. -/
theorem jsub_arr_inv {xs ys : List Jval} (h : Jsub (.arr xs) (.arr ys)) :
    xs.length = ys.length := by
  cases h with
  | arr _ _ hl _ => exact hl

/-- Claim C8, counterexample: `lmpCarrier` is a version-1.1.0 instance
carrying data in a pre-existing `lmp` top-level section.  Upgrading it
to 2.0.0 reports success, yet the `lmp` data is gone — the upgrade is
not additive-only on every instance. -/
theorem c8_upgrade_drops_fields_counterexample :
    (upgrade_schema lmpCarrier (lit "2.0.0") now0).2.1 = true ∧
    jGet (pra1Top lmpCarrier) (lit "lmp") =
      some (.obj [(lit "lbes", .arr [.str (lit "LBE-1")])]) ∧
    ¬ upgradePreservesFields lmpCarrier (lit "2.0.0") now0 := by
  refine ⟨rfl, rfl, ?_⟩
  intro hpf
  unfold upgradePreservesFields at hpf
  have hlmp := jsub_obj_inv hpf (lit "lmp") _ _ rfl rfl
  have hlbes := jsub_obj_inv hlmp (lit "lbes") _ _ rfl rfl
  have hlen := jsub_arr_inv hlbes
  exact absurd hlen (by decide)

/-- Claim C8 (amended): for a schema instance of the standard shape —
no top-level or models keys beyond the documented ones, duplicate-free
metadata keys — each of the three upgrade paths (1.0.0→1.1.0,
1.1.0→2.0.0 and the composed 1.0.0→2.0.0) preserves every field of the
source (after erasing the rewritten version fields), any 2.0.0 result
introduces `initiating_events`/`sequences`/`analysis`/`lmp` with the
safe empty defaults when the source lacks them, and the 1.0.0→1.1.0
step introduces a missing `attributes` field as an empty dict.  On
instances with extra top-level sections the property fails (see the
counterexample). -/
theorem c8_upgrade_additive_amended (d : Pra1) (now : Str)
    (hnod : (d.metadata.map Prod.fst).Nodup)
    (hex : d.topExtra = []) (hmex : d.modelsExtra = []) :
    (d.version = lit "1.0.0" → upgradePreservesFields d (lit "1.1.0") now) ∧
    (d.version = lit "1.1.0" → upgradePreservesFields d (lit "2.0.0") now) ∧
    (d.version = lit "1.0.0" → upgradePreservesFields d (lit "2.0.0") now) ∧
    (∀ p, (upgrade_schema d (lit "2.0.0") now).1 = .inr p →
      (d.initiating_events = none → p.initiating_events = .arr []) ∧
      (d.sequences = none → p.sequences = .arr []) ∧
      (d.analysis = none → p.analysis = .obj OPENPRA_SCHEMA.analysis) ∧
      p.lmp = .obj OPENPRA_SCHEMA.lmp) ∧
    (∀ m, aget m (lit "attributes") = none →
      aget (addAttrsIfAbsent m) (lit "attributes") = some (.obj [])) := by
  refine ⟨?_, ?_, ?_, ?_, ?_⟩
  · intro hver
    unfold upgradePreservesFields
    rw [upgrade_schema_10_11 d now hver]
    exact jsub_upgrade_1_0_to_1_1 d
  · intro hver
    unfold upgradePreservesFields
    rw [upgrade_schema_11_20 d now hver]
    exact jsub_upgrade_1_1_to_2_0 d now hex hmex hnod
  · intro hver
    unfold upgradePreservesFields
    rw [upgrade_schema_10_20 d now hver]
    exact jsub_upgrade_1_0_to_2_0 d now hex hmex hnod
  · intro p hp
    unfold upgrade_schema at hp
    split_ifs at hp
    all_goals first
    | exact Sum.noConfusion hp
    | (injection hp with hp
       subst hp
       refine ⟨?_, ?_, ?_, rfl⟩ <;> intro h <;>
         simp only [upgrade_1_1_to_2_0, upgrade_1_0_to_1_1] <;> rw [h] <;> rfl)
  · intro m hm
    unfold addAttrsIfAbsent
    rw [hm]
    rw [if_neg (by decide)]
    exact aget_aset_self m _ _

/-- Witness for the amended claim C8: `stdInstance` is a concrete
standard-shaped 1.1.0 instance satisfying the hypotheses, and its
1.1.0→2.0.0 upgrade preserves the scrubbed fields. -/
theorem c8_upgrade_additive_amended_witness :
    (stdInstance.metadata.map Prod.fst).Nodup ∧ stdInstance.topExtra = [] ∧
    stdInstance.modelsExtra = [] ∧
    (stdInstance.version = lit "1.1.0" →
      upgradePreservesFields stdInstance (lit "2.0.0") now0) :=
  ⟨by decide, rfl, rfl,
    (c8_upgrade_additive_amended stdInstance now0 (by decide) rfl rfl).2.1⟩
